import Mathlib

/-
Verification of the run-lifecycle and experiment-orchestration engine of the
ETL data-validation repository, as a shallow embedding in Lean 4.

The embedding models the persisted `tech.etl_batch_status` and
`tech.etl_load_audit` tables as Lean lists of rows, and each SQL statement of
`src/app2/db/batch.py` and `src/app2/db/audit.py` as a pure state transition on
those lists.  Timestamps produced by `timezone('Europe/Moscow', now())` are
modelled by an explicit `now : Nat` argument.
-/

/-- One row of `tech.etl_batch_status` (schema from `batch.py` / spec §6:
run_id, parent_run_id, layer, status, attempts, last_updated_at, plus the
dag_id and error_message columns the SQL writes). -/
structure BatchRow where
  dag_id : String
  run_id : String
  parent_run_id : String
  layer : String
  status : String
  attempts : Nat
  error_message : Option String
  last_updated_at : Nat
deriving DecidableEq, Repr

/-- The `ON CONFLICT` target of `log_batch_status`: the unique key
`(layer, parent_run_id, run_id)`. -/
def BatchRow.conflicts (r : BatchRow) (layer parent_run_id run_id : String) : Bool :=
  r.layer == layer && r.parent_run_id == parent_run_id && r.run_id == run_id

/-- `log_batch_status` (batch.py lines 5-42): an
`INSERT ... ON CONFLICT (layer, parent_run_id, run_id) DO UPDATE` upsert.
On conflict it sets `status`, `dag_id` and `error_message` to the new values
unconditionally and increments `attempts` exactly when the new status is
`PROCESSING`; a fresh row starts with `attempts = 1` for `PROCESSING`
and `0` otherwise. -/
def log_batch_status (db : List BatchRow) (dag_id run_id layer status parent_run_id : String)
    (error_message : Option String) (now : Nat) : List BatchRow :=
  if db.any (fun r => r.conflicts layer parent_run_id run_id) then
    db.map (fun r =>
      if r.conflicts layer parent_run_id run_id then
        { r with
          status := status
          dag_id := dag_id
          error_message := error_message
          attempts := if status == "PROCESSING" then r.attempts + 1 else r.attempts
          last_updated_at := now }
      else r)
  else
    db ++ [{ dag_id := dag_id, run_id := run_id, parent_run_id := parent_run_id,
             layer := layer, status := status,
             attempts := if status == "PROCESSING" then 1 else 0,
             error_message := none, last_updated_at := now }]

/-- A status is terminal when it is SUCCESS or FAILED (spec §3). -/
def terminalStatus (s : String) : Bool :=
  s == "SUCCESS" || s == "FAILED"

/-- The eligibility test of `claim_pending_dds_batches` (batch.py lines 56-66):
an STG run id is eligible when no DDS row claims it as parent with status
SUCCESS or PROCESSING. -/
def ddsEligible (db : List BatchRow) (stg_run_id : String) : Bool :=
  !(db.any (fun d => d.layer == "DDS" && d.parent_run_id == stg_run_id &&
      (d.status == "SUCCESS" || d.status == "PROCESSING")))

/-- The row inserted by `claim_pending_dds_batches` for one eligible parent
(batch.py lines 67-72). -/
def ddsClaimRow (dag_id dds_run_id stg_run_id : String) (now : Nat) : BatchRow :=
  { dag_id := dag_id, run_id := dds_run_id, parent_run_id := stg_run_id,
    layer := "DDS", status := "NEW", attempts := 0,
    error_message := none, last_updated_at := now }

/-- The database error raised when the claim INSERT hits the table's unique
(layer, parent_run_id, run_id) index (the index `log_batch_status`'s
`ON CONFLICT (layer, parent_run_id, run_id)` relies on). -/
def uniqueViolationMsg : String :=
  "duplicate key value violates unique constraint on (layer, parent_run_id, run_id)"

/-- `claim_pending_dds_batches` (batch.py lines 45-78): one statement that
selects every STG run with status SUCCESS, keeps those with no DDS row in
status SUCCESS or PROCESSING for that parent, inserts one DDS row in status
NEW with attempts 0 per eligible parent, and returns the claimed parent run
ids.  All CTEs read the pre-statement table snapshot, so eligibility is
computed against the original `db`.  The INSERT has no ON CONFLICT clause, so
a new row whose (layer, parent_run_id, run_id) collides with an existing row
— or with another inserted row — raises a unique-key violation and the whole
statement fails with no effect.  On success, returns the new table state and
the claimed parents. -/
def claim_pending_dds_batches (db : List BatchRow) (dag_id dds_run_id : String)
    (now : Nat) : Except String (List BatchRow × List String) :=
  let stg_success := (db.filter (fun r => r.layer == "STG" && r.status == "SUCCESS")).map
    (fun r => r.run_id)
  let eligible := stg_success.filter (fun s => ddsEligible db s)
  let inserted := eligible.map (fun s => ddsClaimRow dag_id dds_run_id s now)
  if (∃ r ∈ inserted, ∃ d ∈ db,
        d.layer = r.layer ∧ d.parent_run_id = r.parent_run_id ∧ d.run_id = r.run_id) ∨
      ¬(inserted.map (fun r => (r.layer, r.parent_run_id, r.run_id))).Nodup then
    Except.error uniqueViolationMsg
  else
    Except.ok (db ++ inserted, eligible)

/-- The `with engine.begin()` scope around the claim statement (batch.py line
46): commit on success; on a statement error (such as the unique-key
violation) roll back, leaving the table unchanged, and re-raise — the caller
observes the propagated exception, not an empty list.  Returns the resulting
table state together with the returned list or the raised error. -/
def claim_pending_dds_batches_tx (db : List BatchRow) (dag_id dds_run_id : String)
    (now : Nat) : List BatchRow × Except String (List String) :=
  match claim_pending_dds_batches db dag_id dds_run_id now with
  | Except.ok (db1, claimed) => (db1, Except.ok claimed)
  | Except.error e => (db, Except.error e)

/-- One row of `tech.etl_load_audit` as inserted by `audit_log` (audit.py). -/
structure AuditRow where
  dag_id : String
  run_id : String
  task_id : Option String
  layer : String
  entity_name : String
  status : String
  message : Option String
  rows_processed : Option Int
  started_at : Option Nat
  finished_at : Option Nat
deriving DecidableEq, Repr

/-- `audit_log` (audit.py lines 5-51): builds the single row its INSERT writes.
`rows_processed` is stored via
`CASE WHEN :status = 'SUCCESS' THEN CAST(:rows_processed AS int) ELSE NULL END`;
`started_at` falls back to now(); `finished_at` falls back to now() only for
SUCCESS/FAILED/ENDED statuses and stays NULL otherwise. -/
def audit_log (dag_id run_id layer entity_name status : String)
    (task_id message : Option String) (rows_processed : Option Int)
    (started_at finished_at : Option Nat) (now : Nat) : AuditRow :=
  { dag_id := dag_id, run_id := run_id, task_id := task_id, layer := layer,
    entity_name := entity_name, status := status, message := message,
    rows_processed := if status == "SUCCESS" then rows_processed else none,
    started_at := some (started_at.getD now),
    finished_at :=
      match finished_at with
      | some t => some t
      | none =>
        if status == "SUCCESS" || status == "FAILED" || status == "ENDED" then some now
        else none }

/-- Appending an `audit_log` insert to an audit table state. -/
def audit_insert (audit : List AuditRow) (row : AuditRow) : List AuditRow :=
  audit ++ [row]

/-- C1 counterexample: a registry row in terminal status SUCCESS, transitioned
with status NEW for the same (layer, parent_run_id, run_id), ends up stored
with status NEW — the claimed "never rolls back a terminal status to NEW"
fails at this input. -/
theorem C1_counterexample_terminal_rolled_back_to_NEW :
    let db0 : List BatchRow :=
      [{ dag_id := "d", run_id := "r1", parent_run_id := "r1", layer := "STG",
         status := "SUCCESS", attempts := 1, error_message := none,
         last_updated_at := 0 }]
    terminalStatus "SUCCESS" = true ∧
      (log_batch_status db0 "d" "r1" "STG" "NEW" "r1" none 1).map
        (fun r => r.status) = ["NEW"] := by
  constructor
  · rfl
  · rfl

/-- C1 (amended): `log_batch_status` overwrites the stored status of the
conflicting (layer, parent_run_id, run_id) row with the new status
unconditionally — in particular a transition with status NEW on a row in a
terminal status leaves the row stored with status NEW. -/
theorem C1_log_batch_status_always_overwrites_status
    (db : List BatchRow) (dag_id run_id layer status parent_run_id : String)
    (error_message : Option String) (now : Nat) (r : BatchRow)
    (hr : r ∈ log_batch_status db dag_id run_id layer status parent_run_id error_message now)
    (hk : r.conflicts layer parent_run_id run_id = true) :
    r.status = status := by
  unfold log_batch_status at hr
  by_cases h : db.any (fun x => x.conflicts layer parent_run_id run_id) = true
  · rw [if_pos h] at hr
    rcases List.mem_map.mp hr with ⟨x, _, hx⟩
    by_cases hc : x.conflicts layer parent_run_id run_id = true
    · rw [if_pos hc] at hx
      subst hx; rfl
    · rw [if_neg hc] at hx
      subst hx; exact absurd hk hc
  · rw [if_neg h] at hr
    rcases List.mem_append.mp hr with hin | hin
    · exact absurd (List.any_eq_true.mpr ⟨r, hin, hk⟩) h
    · rcases List.mem_singleton.mp hin with rfl
      rfl

/-- Witness for C1: a SUCCESS row transitioned to NEW is stored as NEW. -/
theorem C1_log_batch_status_always_overwrites_status_witness :
    ({ dag_id := "d", run_id := "r1", parent_run_id := "r1", layer := "STG",
       status := "NEW", attempts := 1, error_message := none,
       last_updated_at := 1 } : BatchRow) ∈
      log_batch_status
        [{ dag_id := "d", run_id := "r1", parent_run_id := "r1", layer := "STG",
           status := "SUCCESS", attempts := 1, error_message := none,
           last_updated_at := 0 }]
        "d" "r1" "STG" "NEW" "r1" none 1 ∧
    ({ dag_id := "d", run_id := "r1", parent_run_id := "r1", layer := "STG",
       status := "NEW", attempts := 1, error_message := none,
       last_updated_at := 1 } : BatchRow).status = "NEW" :=
  ⟨by decide, C1_log_batch_status_always_overwrites_status
    [{ dag_id := "d", run_id := "r1", parent_run_id := "r1", layer := "STG",
       status := "SUCCESS", attempts := 1, error_message := none,
       last_updated_at := 0 }]
    "d" "r1" "STG" "NEW" "r1" none 1
    { dag_id := "d", run_id := "r1", parent_run_id := "r1", layer := "STG",
      status := "NEW", attempts := 1, error_message := none, last_updated_at := 1 }
    (by decide) (by decide)⟩

/-- C10: the stored `rows_processed` of an audit event is non-null only when
the event status is SUCCESS; for any other status it is stored as NULL even
when the caller passes a row count. -/
theorem C10_audit_rows_processed_only_on_success
    (dag_id run_id layer entity_name status : String)
    (task_id message : Option String) (rows_processed : Option Int)
    (started_at finished_at : Option Nat) (now : Nat) :
    ((audit_log dag_id run_id layer entity_name status task_id message rows_processed
        started_at finished_at now).rows_processed ≠ none → status = "SUCCESS") ∧
    (status ≠ "SUCCESS" →
      (audit_log dag_id run_id layer entity_name status task_id message rows_processed
        started_at finished_at now).rows_processed = none) := by
  constructor
  · intro h
    by_contra hs
    apply h
    simp only [audit_log]
    rw [if_neg (by simpa using hs)]
  · intro hs
    simp only [audit_log]
    rw [if_neg (by simpa using hs)]

/-- Filtering a string list for one value yields that value replicated as often
as it is counted. -/
theorem filter_beq_eq_replicate (l : List String) (a : String) :
    l.filter (fun s => s == a) = List.replicate (l.countP (fun s => s == a)) a := by
  induction l with
  | nil => rfl
  | cons x xs ih =>
    by_cases h : (x == a) = true
    · have hx : x = a := by simpa using h
      simp [List.filter_cons, List.countP_cons, h, hx, List.replicate_succ, ih]
    · simp [List.filter_cons, List.countP_cons, h, ih]

/-- C2 counterexample: an STG run "r1" with status SUCCESS whose only DDS
child is in status FAILED satisfies the claim's premise (no DDS child in
SUCCESS or PROCESSING), but re-claiming with the same dds_run_id "r2" makes
the INSERT collide with the existing (DDS, r1, r2) row: the statement raises
a unique-key violation, the transaction rolls back with nothing inserted, and
the caller observes the propagated exception — not a list containing "r1",
and not an empty list. -/
theorem C2_counterexample_unique_violation_aborts_claim :
    let db0 : List BatchRow :=
      [{ dag_id := "d", run_id := "r1", parent_run_id := "r1", layer := "STG",
         status := "SUCCESS", attempts := 1, error_message := none,
         last_updated_at := 0 },
       { dag_id := "d", run_id := "r2", parent_run_id := "r1", layer := "DDS",
         status := "FAILED", attempts := 1, error_message := none,
         last_updated_at := 0 }]
    ddsEligible db0 "r1" = true ∧
    claim_pending_dds_batches db0 "d" "r2" 1 = Except.error uniqueViolationMsg ∧
    claim_pending_dds_batches_tx db0 "d" "r2" 1 =
      (db0, Except.error uniqueViolationMsg) := by
  refine ⟨rfl, rfl, rfl⟩

/-- C2 (amended): invoked alone against a table where exactly one STG row with
run_id R1 has status SUCCESS, no DDS row claims R1 with status SUCCESS or
PROCESSING, the STG SUCCESS run ids are distinct, and the fresh dds_run_id is
not already used by any DDS row, the claim statement succeeds, returns a list
containing R1 and appends exactly one new DDS row with parent_run_id R1,
status NEW and attempts 0; and whenever the claim statement fails, the
transaction rolls back — no rows are inserted and the caller observes the
re-raised exception, not an empty result. -/
theorem C2_claim_pending_claims_eligible_stg_run
    (db : List BatchRow) (dag_id dds_run_id R1 : String) (now : Nat)
    (hcount : (db.filter (fun r => r.layer == "STG" && r.status == "SUCCESS")).countP
      (fun r => r.run_id == R1) = 1)
    (helig : ∀ d ∈ db, d.layer = "DDS" → d.parent_run_id = R1 →
      d.status ≠ "SUCCESS" ∧ d.status ≠ "PROCESSING")
    (hfresh : ∀ d ∈ db, d.layer = "DDS" → d.run_id ≠ dds_run_id)
    (hdistinct : ((db.filter (fun r => r.layer == "STG" && r.status == "SUCCESS")).map
      (fun r => r.run_id)).Nodup) :
    (claim_pending_dds_batches db dag_id dds_run_id now).toOption.isSome = true ∧
    (∀ db1 claimed, claim_pending_dds_batches db dag_id dds_run_id now =
        Except.ok (db1, claimed) →
      R1 ∈ claimed ∧ (db1.drop db.length).filter
        (fun r => r.parent_run_id == R1) = [ddsClaimRow dag_id dds_run_id R1 now]) ∧
    (∀ (db2 : List BatchRow) (e : String),
      claim_pending_dds_batches db2 dag_id dds_run_id now = Except.error e →
      claim_pending_dds_batches_tx db2 dag_id dds_run_id now =
        (db2, Except.error e)) := by
  have heligR1 : ddsEligible db R1 = true := by
    simp only [ddsEligible, Bool.not_eq_true', List.any_eq_false]
    intro d hd
    rcases Decidable.em (d.layer = "DDS") with hl | hl
    · rcases Decidable.em (d.parent_run_id = R1) with hp | hp
      · rcases helig d hd hl hp with ⟨h1, h2⟩
        simp [hl, hp, h1, h2]
      · simp [hp]
    · simp [hl]
  set stg_success :=
    (db.filter (fun r => r.layer == "STG" && r.status == "SUCCESS")).map
      (fun r => r.run_id) with hstg
  have hcount' : stg_success.countP (fun s => s == R1) = 1 := by
    rw [hstg, List.countP_map]
    exact hcount
  have hfilter : stg_success.filter (fun s => s == R1) = [R1] := by
    rw [filter_beq_eq_replicate, hcount']
    rfl
  set eligible := stg_success.filter (fun s => ddsEligible db s) with helig'
  have hkey : eligible.filter (fun s => s == R1) = [R1] := by
    rw [helig', List.filter_filter]
    have hpred : (fun s => (s == R1) && ddsEligible db s) = (fun s => s == R1) := by
      funext s
      by_cases h : (s == R1) = true
      · have : s = R1 := by simpa using h
        subst this
        simp [heligR1]
      · simp [h]
    rw [hpred, hfilter]
  set inserted := eligible.map (fun s => ddsClaimRow dag_id dds_run_id s now) with hins
  have helNodup : eligible.Nodup := by
    rw [helig']
    exact hdistinct.filter _
  have hnoconf : ¬((∃ r ∈ inserted, ∃ d ∈ db,
      d.layer = r.layer ∧ d.parent_run_id = r.parent_run_id ∧ d.run_id = r.run_id) ∨
      ¬(inserted.map (fun r => (r.layer, r.parent_run_id, r.run_id))).Nodup) := by
    rw [not_or, not_not]
    constructor
    · rintro ⟨r, hr, d, hd, h1, h2, h3⟩
      rw [hins] at hr
      rcases List.mem_map.mp hr with ⟨s, _, rfl⟩
      exact hfresh d hd (by simpa [ddsClaimRow] using h1)
        (by simpa [ddsClaimRow] using h3)
    · rw [hins, List.map_map]
      have hcomp : ((fun r : BatchRow => (r.layer, r.parent_run_id, r.run_id)) ∘
          (fun s => ddsClaimRow dag_id dds_run_id s now)) =
          (fun s => ("DDS", s, dds_run_id)) := by
        funext s
        rfl
      rw [hcomp]
      refine helNodup.map ?_
      intro a b hab
      simpa using hab
  have hok : claim_pending_dds_batches db dag_id dds_run_id now =
      Except.ok (db ++ inserted, eligible) := by
    simp only [claim_pending_dds_batches]
    rw [← hstg, ← helig', ← hins]
    rw [if_neg hnoconf]
  refine ⟨?_, ?_, ?_⟩
  · rw [hok]
    rfl
  · intro db1 claimed hok2
    rw [hok] at hok2
    have hpair := Except.ok.inj hok2
    injection hpair with hdb hcl
    subst hdb
    subst hcl
    constructor
    · exact List.mem_of_mem_filter (p := fun s => s == R1)
        (by rw [hkey]; exact List.mem_singleton.mpr rfl)
    · rw [List.drop_left, hins]
      have hfil : (eligible.map (fun s => ddsClaimRow dag_id dds_run_id s now)).filter
          (fun r => r.parent_run_id == R1) =
          (eligible.filter (fun s => s == R1)).map
            (fun s => ddsClaimRow dag_id dds_run_id s now) := by
        induction eligible with
        | nil => rfl
        | cons x xs ih =>
          by_cases h : (x == R1) = true
          · simp only [List.map_cons, List.filter_cons]
            rw [if_pos (by simpa [ddsClaimRow] using h), if_pos h]
            rw [List.map_cons, ih]
          · simp only [List.map_cons, List.filter_cons]
            rw [if_neg (by simpa [ddsClaimRow] using h), if_neg h, ih]
      rw [hfil, hkey]
      rfl
  · intro db2 e he
    unfold claim_pending_dds_batches_tx
    rw [he]

/-- Witness for C2: a one-row STG SUCCESS table with no DDS rows; the claim
statement succeeds. -/
theorem C2_claim_pending_claims_eligible_stg_run_witness :
    (claim_pending_dds_batches
      [{ dag_id := "d", run_id := "r1", parent_run_id := "r1", layer := "STG",
         status := "SUCCESS", attempts := 1, error_message := none,
         last_updated_at := 0 }] "d" "r2" 1).toOption.isSome = true := by
  refine (C2_claim_pending_claims_eligible_stg_run
    [{ dag_id := "d", run_id := "r1", parent_run_id := "r1", layer := "STG",
       status := "SUCCESS", attempts := 1, error_message := none,
       last_updated_at := 0 }] "d" "r2" "r1" 1 (by decide) ?_ ?_ (by decide)).1
  · intro d hd
    rcases List.mem_singleton.mp hd with rfl
    exact fun h => absurd h (by decide)
  · intro d hd
    rcases List.mem_singleton.mp hd with rfl
    intro h
    exact absurd h (by decide)

/-- Witness for C10: a FAILED audit event with a supplied row count of 5 is
stored with NULL rows_processed. -/
theorem C10_audit_rows_processed_only_on_success_witness :
    (audit_log "d" "r" "STG" "areas" "FAILED" none none (some 5) none none 0).rows_processed
      = none :=
  (C10_audit_rows_processed_only_on_success "d" "r" "STG" "areas" "FAILED" none none
    (some 5) none none 0).2 (by decide)

/-
Mutation injector (`src/app2/mutators/stg_mutations.py`).  Payloads are JSON
documents; Python dicts are modelled as insertion-ordered association lists
with unique keys and lists as Lean lists, so `copy.deepcopy` is the identity
under value semantics.
-/

/-- A JSON value as handled by the STG mutation injector. -/
inductive JVal where
  | null
  | num (n : Int)
  | str (s : String)
  | jbool (b : Bool)
  | arr (xs : List JVal)
  | obj (fields : List (String × JVal))

/-- Python `d[k]` lookup result for a dict modelled as an assoc list. -/
def objGet (fields : List (String × JVal)) (k : String) : Option JVal :=
  (fields.find? (fun p => p.1 == k)).map (fun p => p.2)

/-- Python `k in d`. -/
def objHas (fields : List (String × JVal)) (k : String) : Bool :=
  fields.any (fun p => p.1 == k)

/-- Python `d.pop(k, None)`: removes the (unique) entry with key `k`. -/
def objPop (fields : List (String × JVal)) (k : String) : List (String × JVal) :=
  fields.eraseP (fun p => p.1 == k)

/-- Python `d[k] = v`: replaces the value in place when the key exists
(dict keys are unique, so replacing every match is the same entry), else
appends the new entry, preserving dict insertion order. -/
def objSet (fields : List (String × JVal)) (k : String) (v : JVal) :
    List (String × JVal) :=
  if objHas fields k then
    fields.map (fun p => if p.1 == k then (p.1, v) else p)
  else fields ++ [(k, v)]

/-- Python `d.get(k)` as seen by `is None` tests and truthiness: a JSON null
value and an absent key are both Python `None`. -/
def pyGet (fields : List (String × JVal)) (k : String) : Option JVal :=
  match objGet fields k with
  | some JVal.null => none
  | o => o

/-- Python truthiness of an optional JSON value. -/
def pyTruthy : Option JVal → Bool
  | none => false
  | some JVal.null => false
  | some (JVal.num n) => n != 0
  | some (JVal.str s) => s ≠ ""
  | some (JVal.jbool b) => b
  | some (JVal.arr xs) => !xs.isEmpty
  | some (JVal.obj fs) => !fs.isEmpty

/-- Display of a JSON value inside a Python f-string. -/
def jDisp : JVal → String
  | JVal.null => "None"
  | JVal.num n => toString n
  | JVal.str s => s
  | JVal.jbool b => if b then "True" else "False"
  | JVal.arr _ => "[...]"
  | JVal.obj _ => "{...}"

/-- A fixed string hash used to model the stdlib PRNG seeding.  The Python
stdlib (`random.Random(seed)`) is outside this repository; all that the
claims rely on is that it is a deterministic function of the seed string. -/
def strHash (s : String) : Nat :=
  s.foldl (fun h c => (h * 31 + c.toNat) % 1000003) 7

/-- Selection step for the sample model: picks `k` distinct positions from
`available`, driven by the evolving hash state. -/
def sampleGo : Nat → List Nat → Nat → List Nat
  | 0, _, _ => []
  | _ + 1, [], _ => []
  | k + 1, available, h =>
    let i := h % available.length
    (available.getD i 0) :: sampleGo k (available.eraseIdx i) (h * 31 + 17)

/-- Model of `random.Random(seed).sample(range(n), k)`: `k` distinct indices
below `n`, a deterministic function of the seed (the stdlib guarantees
determinism for a given seed; the exact selection is irrelevant to the
claims, which concern determinism and no-op behaviour only). -/
def sample (seed : String) (n k : Nat) : List Nat :=
  sampleGo k (List.range n) (strHash seed)

/-- Parsed `APP2_STG_SWAP_TEAMS_COUNT` with the source's fallback to 5 on a
missing variable or unparsable integer, then clamped as in the source:
`count = max(1, count); count = min(count, len(arr))`. -/
def swapTeamsCount (env : Option String) (arrLen : Nat) : Nat :=
  let c0 : Int := match env with
    | none => 5
    | some s => (s.toInt?).getD 5
  min (max 1 c0).toNat arrLen

/-- One swap-loop iteration of the `swap_teams` action: swaps homeTeam and
awayTeam of element `i` when both are dicts and builds the per-match
description, mirroring the source's id/name fallbacks. -/
def swapTeamsStep (acc : List JVal × List String) (i : Nat) : List JVal × List String :=
  let (xs, descs) := acc
  match xs.getD i JVal.null with
  | JVal.obj mf =>
    match objGet mf "homeTeam", objGet mf "awayTeam" with
    | some (JVal.obj hf), some (JVal.obj af) =>
      let match_id := pyGet mf "id"
      let home_id := pyGet hf "id"
      let away_id := pyGet af "id"
      let home_name := pyGet hf "name"
      let away_name := pyGet af "name"
      let mf1 := objSet (objSet mf "homeTeam" (JVal.obj af)) "awayTeam" (JVal.obj hf)
      let base := match match_id with
        | some v => "id=" ++ jDisp v
        | none => "index=" ++ toString i
      let desc := match home_id, away_id with
        | some hv, some av => base ++ " (" ++ jDisp hv ++ "<->" ++ jDisp av ++ ")"
        | _, _ =>
          if pyTruthy home_name && pyTruthy away_name then
            base ++ " (" ++ jDisp (home_name.getD JVal.null) ++ "<->" ++
              jDisp (away_name.getD JVal.null) ++ ")"
          else base
      (xs.set i (JVal.obj mf1), descs ++ [desc])
    | _, _ => (xs, descs)
  | _ => (xs, descs)

/-- The field dropped by `drop_required`: the first of id, name, utcDate
present in the first list element. -/
def dropRequiredField (f0 : List (String × JVal)) : Option String :=
  (["id", "name", "utcDate"].find? (fun field => objHas f0 field))

/-- `_mutate_list` (stg_mutations.py lines 28-93).  The Python function
mutates `payload` in place and returns a description string exactly when an
action fired; every return-None path leaves the payload unmodified (verified
per branch in the source), so the model returns `some (payload, desc)` on
fire and `none` otherwise.  `rng` is the seed of the `random.Random` passed
in (`mutate_payload` always passes one); `ambientSample` models the
unseeded `random.Random()` fallback of line 61, reached only when no rng is
given. -/
def mutate_list (payload : JVal) (list_key action : String) (rng : Option String)
    (ambientSample : Nat → Nat → List Nat) (env : Option String) :
    Option (JVal × String) :=
  let rest :=
    match payload with
    | JVal.obj fields =>
      match objGet fields list_key with
      | some (JVal.arr xs) =>
        if xs.isEmpty then none
        else
          let setArr := fun (ys : List JVal) => JVal.obj (objSet fields list_key (JVal.arr ys))
          if action == "duplicate_first" then
            some (setArr (xs ++ [xs.headD JVal.null]),
              list_key ++ ": duplicated first element")
          else if action == "drop_required" then
            match xs.headD JVal.null with
            | JVal.obj f0 =>
              match dropRequiredField f0 with
              | some field =>
                some (setArr (xs.set 0 (JVal.obj (objPop f0 field))),
                  list_key ++ ": removed field \x27" ++ field ++ "\x27 from first element")
              | none => none
            | _ => none
          else if action == "corrupt_id" then
            match xs.headD JVal.null with
            | JVal.obj f0 =>
              if objHas f0 "id" then
                some (setArr (xs.set 0 (JVal.obj (objSet f0 "id" (JVal.str "abc")))),
                  list_key ++ ": corrupted id to string")
              else none
            | _ => none
          else if action == "matchday_out_of_range" && list_key == "matches" then
            match xs.headD JVal.null with
            | JVal.obj f0 =>
              some (setArr (xs.set 0 (JVal.obj (objSet f0 "matchday" (JVal.str "999")))),
                list_key ++ ": set matchday to out-of-range value")
            | _ => none
          else if action == "swap_teams" && list_key == "matches" then
            let k := swapTeamsCount env xs.length
            let idxs := match rng with
              | some seed => sample seed xs.length k
              | none => ambientSample xs.length k
            let (xs1, descs) := idxs.foldl swapTeamsStep (xs, [])
            if descs.isEmpty then none
            else
              some (setArr xs1,
                "matches: swapped home/away teams for " ++ toString descs.length ++
                  " random matches: " ++ String.intercalate ", " descs)
          else none
      | _ => none
    | _ => none
  if action == "drop_matches_key" && list_key == "matches" then
    match payload with
    | JVal.obj fields =>
      if objHas fields "matches" then
        some (JVal.obj (objPop fields "matches"), "matches: removed key \x27matches\x27")
      else rest
    | _ => rest
  else rest

/-- Per-entity mutation configuration: the enabled flag and ordered action
list from the YAML document (spec §4.3). -/
structure MutationKindCfg where
  enabled : Bool
  actions : List String

/-- The seed string built for one action
(stg_mutations.py line 107: `f"{run_id or ''}:{layer}:{kind}:{action}"`;
Python `run_id or ""` maps a None or empty run_id to the empty string). -/
def actionSeed (run_id : Option String) (layer kind action : String) : String :=
  (run_id.getD "") ++ ":" ++ layer ++ ":" ++ kind ++ ":" ++ action

/-- Python truthiness of an optional string (empty string is falsy). -/
def pyTruthyStr : Option String → Bool
  | none => false
  | some s => s ≠ ""

/-- `mutate_payload` (stg_mutations.py lines 96-122): with the entity enabled,
applies each configured action in order to a deep copy of the payload, each
action with a fresh `random.Random` seeded from (run_id, layer, kind, action);
collects descriptions of actions that fired; writes a single MUTATED audit
event when anything fired and engine, dag_id and run_id are all truthy.
Returns (payload, mutated-flag, audit events written).  The source's list-key
expression `kind if kind != "matches" else "matches"` is `kind` in both
branches. -/
def mutate_payload (ambientSample : Nat → Nat → List Nat) (cfg : MutationKindCfg)
    (engine : Bool) (layer : String) (dag_id run_id : Option String) (kind : String)
    (payload : JVal) (env : Option String) : JVal × Bool × List (String × String) :=
  if !cfg.enabled then (payload, false, [])
  else
    let step := fun (acc : JVal × List String) (action : String) =>
      match mutate_list acc.1 kind action (some (actionSeed run_id layer kind action))
          ambientSample env with
      | some (p1, desc) => (p1, acc.2 ++ [desc])
      | none => acc
    let out := cfg.actions.foldl step (payload, [])
    let audits :=
      if !out.2.isEmpty && engine && pyTruthyStr dag_id && pyTruthyStr run_id then
        [(layer ++ "_mutation_" ++ kind, String.intercalate "; " out.2)]
      else []
    ((if out.2.isEmpty then payload else out.1), !out.2.isEmpty, audits)

/-
Validator runner (`src/app2/validators/runner.py`).
-/

/-- `ValidationResult` (validators/models.py); `duration_ms` is assigned by the
runner after the validator returns, so it is not an input here. -/
structure ValidationResult where
  status : String
  errors : List String
  warnings : List String
  infos : List String
deriving DecidableEq, Repr

/-- The per-validator configuration entry the runner reads: `enabled`
(default true), `severity` (default "error") and `type`.  A missing or empty
config dict is modelled as `none` (Python: `if not cfg or ...: return`). -/
structure ValidatorCfg where
  enabled : Bool
  severity : Option String
  rule_type : Option String
deriving DecidableEq, Repr

/-- One row of `tech.validation_check_result` as inserted by
`log_validation_check` for the columns the runner passes; `details_json`
is kept structured instead of serialized. -/
inductive CheckDetails where
  | exception (msg : String)
  | lists (infos warnings errors : List String)
deriving DecidableEq, Repr

structure ValidationCheckRow where
  validation_run_id : Nat
  check_name : String
  rule_type : Option String
  etl_stage : String
  status : String
  severity : String
  started_at : Nat
  finished_at : Option Nat
  duration_ms : Nat
  rows_failed : Option Nat
  message : Option String
  details : Option CheckDetails
deriving DecidableEq, Repr

/-- Python `str.lower()` for the ASCII configuration values the runner
normalizes (severity strings). -/
def strLower (s : String) : String := String.mk (s.toList.map Char.toLower)

/-- Digits-to-number for the rows-failed pattern. -/
def digitsVal (cs : List Char) : Nat :=
  cs.foldl (fun acc c => acc * 10 + (c.toNat - 48)) 0

/-- Whether a character is in the regex `\s` class. -/
def isSpaceClass (c : Char) : Bool :=
  c == ' ' || c == '\t' || c == '\n' || c == '\r'

/-- `re.search(r"=\s*(\d+)\s*$", info)`: the pattern is anchored at the end,
so a match exists exactly when the line ends (modulo trailing whitespace) in
a nonempty digit run preceded, after optional whitespace, by an equals sign;
the captured value is that digit run. -/
def matchTrailingEqInt (s : String) : Option Nat :=
  let cs := s.toList.reverse
  let cs1 := cs.dropWhile isSpaceClass
  let digits := cs1.takeWhile (fun c => c.isDigit)
  let rest := (cs1.dropWhile (fun c => c.isDigit)).dropWhile isSpaceClass
  if digits.isEmpty then none
  else
    match rest with
    | c :: _ => if c == '=' then some (digitsVal digits.reverse) else none
    | [] => none

/-- `_extract_rows_failed` (runner.py lines 101-106): iterates the infos in
order and returns the value of the FIRST line matching the pattern. -/
def extract_rows_failed (infos : List String) : Option Nat :=
  infos.findSome? matchTrailingEqInt

/-- The spec's wording of the extraction, for comparison: the value parsed
from the LAST infos line matching the trailing `= <integer>` pattern. -/
def spec_rows_failed_last (infos : List String) : Option Nat :=
  infos.reverse.findSome? matchTrailingEqInt

/-- The diagnostic lines the runner appends to the validator's infos before
extraction and auditing (runner.py lines 159-164); `payloadSize = none`
models the `json.dumps` failure fallback "n/a".  Neither line contains an
equals sign. -/
def runnerInfos (r : ValidationResult) (duration_ms : Nat) (payloadSize : Option Nat) :
    List String :=
  r.infos ++ ["Duration_ms: " ++ toString duration_ms,
    match payloadSize with
    | some n => "Payload_size_bytes: " ++ toString n
    | none => "Payload_size_bytes: n/a"]

/-- Everything `run_validation` produces: the persisted check rows, the audit
events written, the (run_id, parent_run_id, layer, error_message) arguments
of the `log_batch_status` FAILED transition when the run is marked FAILED
(none otherwise), and the returned value or raised error. -/
structure RunValidationOut where
  checks : List ValidationCheckRow
  audits : List AuditRow
  marked_failed : Option (String × String × String × String)
  outcome : Except String (Option ValidationResult)

/-- The check row persisted on the exception path (runner.py lines 139-153):
status ERROR, no rows_failed, the exception text as message and details. -/
def exceptionCheckRow (vid : Nat) (validator_name : String) (rt : Option String)
    (layer severity : String) (start_dt now duration_ms : Nat) (exc : String) :
    ValidationCheckRow :=
  { validation_run_id := vid, check_name := validator_name, rule_type := rt,
    etl_stage := layer, status := "ERROR", severity := severity,
    started_at := start_dt, finished_at := some now, duration_ms := duration_ms,
    rows_failed := none, message := some exc,
    details := some (CheckDetails.exception exc) }

/-- The check row persisted on the error-severity failure path (runner.py
lines 189-204): status FAIL, rows_failed extracted from the extended infos. -/
def failCheckRow (vid : Nat) (validator_name : String) (rt : Option String)
    (layer severity : String) (start_dt now duration_ms : Nat)
    (infos warnings errors : List String) : ValidationCheckRow :=
  { validation_run_id := vid, check_name := validator_name, rule_type := rt,
    etl_stage := layer, status := "FAIL", severity := severity,
    started_at := start_dt, finished_at := some now, duration_ms := duration_ms,
    rows_failed := extract_rows_failed infos,
    message := some (errors.headD ""),
    details := some (CheckDetails.lists infos warnings errors) }

/-- The check row persisted on the non-raising tail path (runner.py lines
207-225): status PASS/WARN/ERROR, rows_failed extracted only for non-PASS. -/
def tailCheckRow (vid : Nat) (validator_name : String) (rt : Option String)
    (layer severity statusF : String) (start_dt now duration_ms : Nat)
    (infos warnings errors : List String) : ValidationCheckRow :=
  { validation_run_id := vid, check_name := validator_name, rule_type := rt,
    etl_stage := layer, status := statusF, severity := severity,
    started_at := start_dt, finished_at := some now, duration_ms := duration_ms,
    rows_failed := if statusF != "PASS" then extract_rows_failed infos else none,
    message := warnings.head?,
    details := some (CheckDetails.lists infos warnings errors) }

/-- `run_validation` (runner.py lines 109-228) as a pure function.  Inputs
that the Python reads from the outside world are explicit: `cfg` is the
config entry for (layer, validator_name) (none for missing/empty),
`registryPresent` whether `VALIDATOR_REGISTRY` has the validator, `vres` the
validator call's result or raised exception, `duration_ms` the measured wall
time, `payloadSize` the serialized payload size, `start_dt`/`now` the clock
readings. -/
def run_validation (cfg : Option ValidatorCfg) (registryPresent : Bool)
    (vres : Except String ValidationResult)
    (layer dag_id run_id validator_name parent_run_id : String)
    (validation_run_id : Option Nat) (payloadSize : Option Nat)
    (duration_ms : Nat) (start_dt now : Nat) : RunValidationOut :=
  match cfg with
  | none => ⟨[], [], none, Except.ok none⟩
  | some c =>
    if !c.enabled then ⟨[], [], none, Except.ok none⟩
    else
      let severity := strLower (c.severity.getD "error")
      if !registryPresent then ⟨[], [], none, Except.ok none⟩
      else
        let entity_name := layer ++ "_validation_" ++ validator_name
        let started := audit_log dag_id run_id layer entity_name "STARTED" none none none
          (some start_dt) none now
        match vres with
        | Except.error exc =>
          let checks := match validation_run_id with
            | some vid =>
              [exceptionCheckRow vid validator_name c.rule_type layer severity
                start_dt now duration_ms exc]
            | none => []
          ⟨checks, [started], none, Except.error exc⟩
        | Except.ok result =>
          let infos := runnerInfos result duration_ms payloadSize
          let info_text := String.intercalate "\n" infos
          let audits0 := [started] ++
            (if info_text ≠ "" then
              [audit_log dag_id run_id layer entity_name "INFO" none (some info_text)
                none none none now] else []) ++
            (if !result.warnings.isEmpty then
              [audit_log dag_id run_id layer entity_name "WARNING" none
                (some (String.intercalate "\n" result.warnings)) none none none now]
             else [])
          if !result.errors.isEmpty && severity != "warning" then
            let error_text := String.intercalate "\n" result.errors
            let auditsF := audits0 ++
              [audit_log dag_id run_id layer entity_name "ERROR" none (some error_text)
                none none none now,
               audit_log dag_id run_id layer entity_name "ENDED" none (some error_text)
                none (some start_dt) (some now) now]
            let checksF := match validation_run_id with
              | some vid =>
                [failCheckRow vid validator_name c.rule_type layer severity
                  start_dt now duration_ms infos result.warnings result.errors]
              | none => []
            ⟨checksF, auditsF,
              some (run_id, parent_run_id, layer,
                entity_name ++ ": " ++ result.errors.headD ""),
              Except.error ("Validation " ++ entity_name ++ " failed: " ++
                result.errors.headD "")⟩
          else
            let status0 := if !result.errors.isEmpty && severity == "warning"
              then "WARN" else "PASS"
            let statusF := if result.status == "ERROR" then "ERROR" else status0
            let checksT := match validation_run_id with
              | some vid =>
                [tailCheckRow vid validator_name c.rule_type layer severity statusF
                  start_dt now duration_ms infos result.warnings result.errors]
              | none => []
            ⟨checksT,
              audits0 ++ [audit_log dag_id run_id layer entity_name "ENDED" none none
                none (some start_dt) (some now) now],
              none, Except.ok (some result)⟩

/-- C5 counterexample: a failing validator whose infos contain two lines
matching the trailing `= <integer>` pattern ("a = 1" then "b = 2").  The
persisted row's rows_failed is 1, parsed from the FIRST matching line, while
the claim's "last line" reading would give 2. -/
theorem C5_counterexample_rows_failed_first_not_last :
    ((run_validation (some ⟨true, none, none⟩) true
        (Except.ok ⟨"FAILED", ["boom"], [], ["a = 1", "b = 2"]⟩)
        "STG" "d" "r" "v" "p" (some 1) (some 10) 7 0 1).checks.map
      (fun ck => ck.rows_failed)) = [some 1] ∧
    spec_rows_failed_last
      (runnerInfos ⟨"FAILED", ["boom"], [], ["a = 1", "b = 2"]⟩ 7 (some 10)) = some 2 ∧
    (some 1 : Option Nat) ≠ some 2 := by
  refine ⟨by decide, by decide, by decide⟩

/-- C5 (amended): with the validator enabled and present, exactly one
ValidationCheckResult row is persisted when a validation_run_id is supplied
(none when it is not), on the normal, failing and exception paths alike; its
rows_failed is the integer parsed from the FIRST line of the (diagnostic-
extended) infos matching a trailing `= <integer>` pattern, except that it is
NULL on a row persisted with status PASS and on the exception path. -/
theorem C5_run_validation_check_persistence
    (c : ValidatorCfg) (vres : Except String ValidationResult)
    (layer dag_id run_id validator_name parent_run_id : String)
    (vid : Nat) (payloadSize : Option Nat) (duration_ms start_dt now : Nat)
    (henabled : c.enabled = true) :
    (run_validation (some c) true vres layer dag_id run_id validator_name parent_run_id
        (some vid) payloadSize duration_ms start_dt now).checks.length = 1 ∧
    (run_validation (some c) true vres layer dag_id run_id validator_name parent_run_id
        none payloadSize duration_ms start_dt now).checks = [] ∧
    (∀ ck ∈ (run_validation (some c) true vres layer dag_id run_id validator_name
        parent_run_id (some vid) payloadSize duration_ms start_dt now).checks,
      (∀ e, vres = Except.error e → ck.rows_failed = none) ∧
      (∀ r, vres = Except.ok r →
        (ck.status = "PASS" → ck.rows_failed = none) ∧
        (ck.status ≠ "PASS" →
          ck.rows_failed = extract_rows_failed (runnerInfos r duration_ms payloadSize)))) := by
  obtain ⟨en, sev, rt⟩ := c
  simp only [ValidatorCfg.enabled] at henabled
  subst henabled
  rcases vres with e | r
  · refine ⟨rfl, rfl, ?_⟩
    intro ck hck
    replace hck : ck ∈ [exceptionCheckRow vid validator_name rt layer
        (strLower (sev.getD "error")) start_dt now duration_ms e] := hck
    rcases List.mem_singleton.mp hck with rfl
    exact ⟨fun _ _ => rfl, fun r0 hr0 => by cases hr0⟩
  · by_cases herr : (!r.errors.isEmpty &&
        (strLower (sev.getD "error") != "warning")) = true
    · refine ⟨?_, ?_, ?_⟩
      · simp [run_validation, herr]
      · simp [run_validation, herr]
      · intro ck hck
        simp only [run_validation, herr, if_true] at hck
        replace hck : ck ∈ [failCheckRow vid validator_name rt layer
            (strLower (sev.getD "error")) start_dt now duration_ms
            (runnerInfos r duration_ms payloadSize) r.warnings r.errors] := hck
        rcases List.mem_singleton.mp hck with rfl
        refine ⟨fun e0 he0 => (by cases he0), fun r0 hr0 => ?_⟩
        cases hr0
        exact ⟨fun hpass => (by simp [failCheckRow] at hpass), fun _ => rfl⟩
    · refine ⟨?_, ?_, ?_⟩
      · simp [run_validation, herr]
      · simp [run_validation, herr]
      · intro ck hck
        rw [Bool.not_eq_true] at herr
        simp only [run_validation, herr, if_false] at hck
        replace hck : ck ∈ [tailCheckRow vid validator_name rt layer
            (strLower (sev.getD "error"))
            (if r.status == "ERROR" then "ERROR"
             else if !r.errors.isEmpty && (strLower (sev.getD "error") == "warning")
               then "WARN" else "PASS")
            start_dt now duration_ms
            (runnerInfos r duration_ms payloadSize) r.warnings r.errors] := hck
        rcases List.mem_singleton.mp hck with rfl
        refine ⟨fun e0 he0 => (by cases he0), fun r0 hr0 => ?_⟩
        cases hr0
        constructor
        · intro hpass
          simp only [tailCheckRow] at hpass ⊢
          rw [if_neg]
          rw [bne_iff_ne, ne_eq, Decidable.not_not]
          exact hpass
        · intro hne
          simp only [tailCheckRow] at hne ⊢
          rw [if_pos]
          rw [bne_iff_ne]
          exact hne

/-- Witness for C5: an enabled validator returning a clean PASS persists
exactly one check row. -/
theorem C5_run_validation_check_persistence_witness :
    (run_validation (some ⟨true, none, none⟩) true
        (Except.ok ⟨"OK", [], [], []⟩) "STG" "d" "r" "v" "p" (some 1) (some 0)
        3 0 1).checks.length = 1 :=
  (C5_run_validation_check_persistence ⟨true, none, none⟩
    (Except.ok ⟨"OK", [], [], []⟩) "STG" "d" "r" "v" "p" 1 (some 0) 3 0 1 rfl).1

/-
Experiment orchestrator (`src/app2/experiments/run.py`): the per-step wrapper
`_run_step`, the finalize pass `_finalize_steps`, the per-iteration exception
boundary, and the iteration-scoped environment handling.
-/

/-- `StepResult` as recorded by the orchestrator (report.py dataclass). -/
structure StepResult where
  name : String
  status : String
  details : Option String
  error : Option String
deriving DecidableEq, Repr

/-- Constructor shorthand for StepResult rows. -/
def mkStep (name status : String) (details error : Option String) : StepResult :=
  ⟨name, status, details, error⟩

/-- One planned `_run_step` call of an iteration body: the step name and
details passed, the `skipped` flag, and whether the wrapped `fn` returns or
raises (the raised traceback text). -/
structure PlanStep where
  name : String
  details : Option String
  skipped : Bool
  outcome : Except String Unit

/-- `_run_step` (run.py lines 594-604): appends SKIPPED when `skipped`,
SUCCESS when `fn` returns, and FAILED with the captured error text when `fn`
raises — in which case the exception propagates.  A `details` of `none`
stands for Python `None` (and, where `or`-tested, the empty string). -/
def run_step (steps : List StepResult) (p : PlanStep) :
    List StepResult × Except String Unit :=
  if p.skipped then
    (steps ++ [mkStep p.name "SKIPPED" p.details none], Except.ok ())
  else
    match p.outcome with
    | Except.ok _ =>
      (steps ++ [mkStep p.name "SUCCESS" p.details none], Except.ok ())
    | Except.error e =>
      (steps ++ [mkStep p.name "FAILED" p.details (some e)], Except.error e)

/-- Executes the iteration body's planned `_run_step` calls in order; a step
that raises aborts the rest of the body (the exception propagates to the
per-iteration handler). -/
def run_plan (steps : List StepResult) : List PlanStep → List StepResult × Except String Unit
  | [] => (steps, Except.ok ())
  | p :: rest =>
    match run_step steps p with
    | (steps1, Except.ok _) => run_plan steps1 rest
    | (steps1, Except.error e) => (steps1, Except.error e)

/-- The fallback detail text of `_finalize_steps` (run.py line 634). -/
def notExecutedDetail : String := "не выполнено из-за ошибки на предыдущем шаге"

/-- `_finalize_steps` (run.py lines 627-636): appends a SKIPPED StepResult for
every expected step whose name is not among the recorded steps; when some
recorded step FAILED, an absent (falsy) declared detail falls back to the
"not executed due to earlier failure" text — a present declared detail is
kept as is. -/
def finalize_steps (steps : List StepResult) (expected : List (String × Option String)) :
    List StepResult :=
  let failed := steps.any (fun s => s.status == "FAILED")
  steps ++ (expected.filter (fun p => !(steps.any (fun s => s.name == p.1)))).map
    (fun p =>
      if failed then mkStep p.1 "SKIPPED" (some (p.2.getD notExecutedDetail)) none
      else mkStep p.1 "SKIPPED" p.2 none)

/-- The per-iteration outcome of `run_experiment`: recorded steps, final
status, and the snapshots map (view name to rows blob). -/
structure IterationModel where
  steps : List StepResult
  status : String
  snapshots : List (String × String)
deriving DecidableEq, Repr

/-- One iteration inside the orchestrator's `try/except` boundary (run.py
lines 638-886): the body runs its planned steps; on success the iteration
keeps status SUCCESS and the snapshots produced by the final MART step; on an
exception the handler sets status FAILED, leaves the snapshots empty, and the
finalize pass runs on both paths. -/
def run_iteration (expected : List (String × Option String)) (plan : List PlanStep)
    (snapsOnSuccess : List (String × String)) : IterationModel :=
  match run_plan [] plan with
  | (steps1, Except.ok _) => ⟨finalize_steps steps1 expected, "SUCCESS", snapsOnSuccess⟩
  | (steps1, Except.error _) => ⟨finalize_steps steps1 expected, "FAILED", []⟩

/-- One iteration's specification, for the orchestrator loop. -/
structure IterSpec where
  expected : List (String × Option String)
  plan : List PlanStep
  snapsOnSuccess : List (String × String)

/-- The orchestrator's iteration loop (run.py line 512 and 873-886): each
iteration appends exactly one IterationResult; the `except Exception` handler
guarantees an iteration that raises cannot abort the loop. -/
def run_iterations (its : List IterSpec) : List IterationModel :=
  its.map (fun s => run_iteration s.expected s.plan s.snapsOnSuccess)

/-- A successful planned step for building scenarios. -/
def okStep (name : String) (details : Option String) : PlanStep :=
  ⟨name, details, false, Except.ok ()⟩

/-- Lemma: running a prefix of successful, non-skipped steps accumulates
SUCCESS rows and continues with the rest of the plan. -/
theorem run_plan_ok_prefix (pre : List (String × Option String))
    (steps : List StepResult) (rest : List PlanStep) :
    run_plan steps (pre.map (fun p => okStep p.1 p.2) ++ rest) =
      run_plan (steps ++ pre.map (fun p => mkStep p.1 "SUCCESS" p.2 none)) rest := by
  induction pre generalizing steps with
  | nil => simp
  | cons q qs ih =>
    simp only [List.map_cons, List.cons_append]
    have hstep : run_plan steps
        (okStep q.1 q.2 :: (qs.map (fun p => okStep p.1 p.2) ++ rest)) =
        run_plan (steps ++ [mkStep q.1 "SUCCESS" q.2 none])
          (qs.map (fun p => okStep p.1 p.2) ++ rest) := rfl
    rw [hstep, ih]
    simp

/-- C3 counterexample: an iteration of five expected steps, each with a
pre-declared detail text, whose third step raises.  Step four is recorded
SKIPPED but carries its pre-declared detail "d4", not the claimed "not
executed due to earlier failure" text. -/
theorem C3_counterexample_skipped_detail_is_declared_text :
    ((run_iteration
        [("s1", some "d1"), ("s2", some "d2"), ("s3", some "d3"),
         ("s4", some "d4"), ("s5", some "d5")]
        [okStep "s1" (some "d1"), okStep "s2" (some "d2"),
         ⟨"s3", some "d3", false, Except.error "boom"⟩,
         okStep "s4" (some "d4"), okStep "s5" (some "d5")]
        []).steps.getD 3 (mkStep "" "" none none)).details = some "d4" ∧
    some "d4" ≠ some notExecutedDetail := by
  constructor
  · rfl
  · intro h
    simp only [Option.some.injEq] at h
    exact absurd h (by decide)

/-- C3 (amended): when the k-th of the n expected steps of an iteration
raises (all earlier body steps having succeeded), the recorded StepResult
list is: the first k-1 steps SUCCESS with their declared details, step k
FAILED with the captured error, and each later expected step SKIPPED —
carrying the "not executed due to earlier failure" text only when it has no
declared detail, its declared detail otherwise; the iteration status is
FAILED, its snapshots map is empty, and the orchestrator's loop still
produces one result per remaining iteration (a failing iteration never
aborts the ones after it). -/
theorem C3_step_isolation
    (pre rest : List (String × Option String)) (nameK : String) (detK : Option String)
    (e : String) (post : List PlanStep) (snaps : List (String × String))
    (its1 its2 : List IterSpec)
    (hrest : ∀ p ∈ rest, p.1 ∉ pre.map Prod.fst ∧ p.1 ≠ nameK) :
    run_iteration (pre ++ [(nameK, detK)] ++ rest)
        (pre.map (fun p => okStep p.1 p.2) ++ [⟨nameK, detK, false, Except.error e⟩] ++ post)
        snaps =
      ⟨(pre.map (fun p => mkStep p.1 "SUCCESS" p.2 none) ++
        [mkStep nameK "FAILED" detK (some e)]) ++
        rest.map (fun p => mkStep p.1 "SKIPPED" (some (p.2.getD notExecutedDetail)) none),
        "FAILED", []⟩ ∧
    run_iterations (its1 ++ its2) = run_iterations its1 ++ run_iterations its2 := by
  constructor
  · have hplan : run_plan []
        (pre.map (fun p => okStep p.1 p.2) ++ [⟨nameK, detK, false, Except.error e⟩] ++ post) =
        (pre.map (fun p => mkStep p.1 "SUCCESS" p.2 none) ++
          [mkStep nameK "FAILED" detK (some e)],
         Except.error e) := by
      rw [List.append_assoc, run_plan_ok_prefix]
      simp [run_plan, run_step]
    unfold run_iteration
    rw [hplan]
    simp only [IterationModel.mk.injEq, and_true]
    unfold finalize_steps
    have hfailed : ((pre.map (fun p => mkStep p.1 "SUCCESS" p.2 none) ++
        [mkStep nameK "FAILED" detK (some e)]).any
          (fun s => s.status == "FAILED")) = true := by
      simp [mkStep]
    rw [hfailed]
    simp only [if_true]
    congr 1
    have hkeep : (pre ++ [(nameK, detK)] ++ rest).filter
        (fun p => !((pre.map (fun q => mkStep q.1 "SUCCESS" q.2 none) ++
          [mkStep nameK "FAILED" detK (some e)]).any
            (fun s => s.name == p.1))) = rest := by
      rw [List.filter_append, List.filter_append]
      have h1 : pre.filter (fun p => !((pre.map (fun q => mkStep q.1 "SUCCESS" q.2 none) ++
          [mkStep nameK "FAILED" detK (some e)]).any
            (fun s => s.name == p.1))) = [] := by
        rw [List.filter_eq_nil_iff]
        intro p hp
        have hhit : ((pre.map (fun q => mkStep q.1 "SUCCESS" q.2 none)).any
            (fun s => s.name == p.1)) = true :=
          List.any_eq_true.mpr ⟨mkStep p.1 "SUCCESS" p.2 none,
            List.mem_map_of_mem _ hp, by simp [mkStep]⟩
        simp [hhit]
      have h2 : ([(nameK, detK)] : List (String × Option String)).filter
          (fun p => !((pre.map (fun q => mkStep q.1 "SUCCESS" q.2 none) ++
          [mkStep nameK "FAILED" detK (some e)]).any
            (fun s => s.name == p.1))) = [] := by
        simp [mkStep]
      have h3 : rest.filter (fun p => !((pre.map (fun q => mkStep q.1 "SUCCESS" q.2 none) ++
          [mkStep nameK "FAILED" detK (some e)]).any
            (fun s => s.name == p.1))) = rest := by
        rw [List.filter_eq_self]
        intro p hp
        rcases hrest p hp with ⟨hp1, hp2⟩
        have hA : ((pre.map (fun q => mkStep q.1 "SUCCESS" q.2 none)).any
            (fun s => s.name == p.1)) = false := by
          rw [List.any_eq_false]
          intro s hs
          rcases List.mem_map.mp hs with ⟨q, hq, rfl⟩
          simp only [mkStep]
          intro hcon
          have hq1 : q.1 = p.1 := by simpa using hcon
          exact hp1 (hq1 ▸ List.mem_map_of_mem Prod.fst hq)
        have hB : (([mkStep nameK "FAILED" detK (some e)] : List StepResult).any
            (fun s => s.name == p.1)) = false := by
          simp only [List.any_cons, List.any_nil, Bool.or_false, mkStep]
          rw [beq_eq_false_iff_ne]
          exact fun hcon => hp2 hcon.symm
        simp [hA, hB]
      rw [h1, h2, h3]
      rfl
    rw [hkeep]
  · unfold run_iterations
    rw [List.map_append]

/-- Witness for C3: the concrete 5-step iteration whose 3rd step raises,
with no declared details on the trailing steps, so the fallback text shows. -/
theorem C3_step_isolation_witness :
    run_iteration [("s1", some "d1"), ("s2", some "d2"), ("s3", none),
        ("s4", none), ("s5", none)]
      [okStep "s1" (some "d1"), okStep "s2" (some "d2"),
       ⟨"s3", none, false, Except.error "boom"⟩, okStep "s4" none, okStep "s5" none]
      [] =
      ⟨[mkStep "s1" "SUCCESS" (some "d1") none,
        mkStep "s2" "SUCCESS" (some "d2") none,
        mkStep "s3" "FAILED" none (some "boom"),
        mkStep "s4" "SKIPPED" (some notExecutedDetail) none,
        mkStep "s5" "SKIPPED" (some notExecutedDetail) none], "FAILED", []⟩ := by
  have h := C3_step_isolation [("s1", some "d1"), ("s2", some "d2")]
    [("s4", none), ("s5", none)] "s3" none "boom" [] []
    [] []
    (by
      intro p hp
      rcases List.mem_cons.mp hp with rfl | hp
      · exact ⟨by decide, by decide⟩
      · rcases List.mem_singleton.mp hp with rfl
        exact ⟨by decide, by decide⟩)
  exact h.1

/-
Iteration-scoped environment handling (run.py lines 41-45, 618-625, 865-871).
`os.environ` is modelled as an insertion-ordered association list with unique
keys (as a process environment has).
-/

/-- The process environment. -/
def Env := List (String × String)

/-- `os.environ.get(k)`. -/
def envGet (env : Env) (k : String) : Option String :=
  ((env : List (String × String)).find? (fun p => p.1 == k)).map (fun p => p.2)

/-- `os.environ[k] = v`: replaces the value of the (unique) existing entry,
else appends a new entry. -/
def envStore (env : Env) (k : String) (v : String) : Env :=
  match env with
  | [] => [(k, v)]
  | p :: rest => if p.1 == k then (p.1, v) :: rest else p :: envStore rest k v

/-- `os.environ.pop(k, None)`: removes the entry with key `k`; with unique
keys, removing every match is removing the one entry. -/
def envPop (env : Env) (k : String) : Env :=
  (env : List (String × String)).filter (fun p => !(p.1 == k))

/-- `_set_env` (run.py lines 41-45): a None or blank value removes the
variable, anything else sets it. -/
def env_set (env : Env) (k : String) (v : Option String) : Env :=
  match v with
  | none => envPop env k
  | some s => if s.toList.all isSpaceClass then envPop env k else envStore env k s

/-- The `prev_env` capture loop (run.py lines 618-625): for each it_cfg.env
entry in order, record the current value of the key, then assign the new
value.  Returns the captured previous values and the updated environment. -/
def iteration_env_capture (env : Env) :
    List (String × String) → List (String × Option String) × Env
  | [] => ([], env)
  | kv :: rest =>
    let out := iteration_env_capture (envStore env kv.1 kv.2) rest
    ((kv.1, envGet env kv.1) :: out.1, out.2)

/-- The `finally` restore loop (run.py lines 865-871): every captured key is
set back to its previous value, or removed when previously unset.  (The
`if prev_env:` guard equals folding the empty list.) -/
def iteration_env_restore (env : Env) : List (String × Option String) → Env
  | [] => env
  | kp :: rest =>
    iteration_env_restore
      (match kp.2 with
        | none => envPop env kp.1
        | some s => envStore env kp.1 s) rest

/-- The `_set_env` calls performed by the iteration body before it finishes or
raises (run.py lines 672, 724, 789 and, inside the validation helpers, lines
251 and 261): the config-path variables APP2_STG_MUTATIONS_CONFIG,
APP2_DDS_MUTATIONS_CONFIG, APP2_VALIDATION_CONFIG_STG and
APP2_VALIDATION_CONFIG_DDS.  On an exception only a prefix of them has
happened; `bodySets` is whatever prefix ran, so the theorem covers both exit
paths. -/
def apply_env_sets (env : Env) : List (String × Option String) → Env
  | [] => env
  | kv :: rest => apply_env_sets (env_set env kv.1 kv.2) rest

/-- The environment across one orchestrator iteration: capture and install
`it_cfg.env`, run the body's `_set_env` calls, then restore only the captured
keys in the `finally` block. -/
def run_iteration_env (env0 : Env) (itEnv : List (String × String))
    (bodySets : List (String × Option String)) : Env :=
  let cap := iteration_env_capture env0 itEnv
  iteration_env_restore (apply_env_sets cap.2 bodySets) cap.1

/-- Lookup after storing the same key. -/
theorem envGet_store_self (env : Env) (k v : String) :
    envGet (envStore env k v) k = some v := by
  induction env with
  | nil => simp [envStore, envGet]
  | cons p rest ih =>
    by_cases h : (p.1 == k) = true
    · simp only [envStore]
      rw [if_pos h]
      simp only [envGet]
      rw [List.find?_cons_of_pos (p := fun (q : String × String) => q.1 == k) _ (by simpa using h)]
      rfl
    · simp only [envStore]
      rw [if_neg h]
      simp only [envGet] at ih ⊢
      rw [List.find?_cons_of_neg (p := fun (q : String × String) => q.1 == k) _ (by simpa using h)]
      exact ih

/-- Lookup after storing a different key. -/
theorem envGet_store_other (env : Env) (k k1 v : String) (h : k1 ≠ k) :
    envGet (envStore env k1 v) k = envGet env k := by
  induction env with
  | nil =>
    simp only [envStore, envGet]
    rw [List.find?_cons_of_neg (p := fun (q : String × String) => q.1 == k) _ (by simpa using h)]
  | cons p rest ih =>
    by_cases hp : (p.1 == k1) = true
    · have hp1 : p.1 = k1 := by simpa using hp
      simp only [envStore]
      rw [if_pos hp]
      simp only [envGet]
      rw [List.find?_cons_of_neg (p := fun (q : String × String) => q.1 == k) _ (by simpa [hp1] using h),
        List.find?_cons_of_neg (p := fun (q : String × String) => q.1 == k) _ (by simpa [hp1] using h)]
    · simp only [envStore]
      rw [if_neg hp]
      simp only [envGet] at ih ⊢
      by_cases hq : (p.1 == k) = true
      · rw [List.find?_cons_of_pos (p := fun (q : String × String) => q.1 == k) _ hq,
          List.find?_cons_of_pos (p := fun (q : String × String) => q.1 == k) _ hq]
      · rw [List.find?_cons_of_neg (p := fun (q : String × String) => q.1 == k) _ (by simpa using hq),
          List.find?_cons_of_neg (p := fun (q : String × String) => q.1 == k) _ (by simpa using hq)]
        exact ih

/-- Lookup after removing the same key. -/
theorem envGet_pop_self (env : Env) (k : String) :
    envGet (envPop env k) k = none := by
  induction env with
  | nil => rfl
  | cons p rest ih =>
    by_cases h : (p.1 == k) = true
    · simp only [envPop, List.filter_cons] at ih ⊢
      rw [if_neg (by simp [h])]
      exact ih
    · simp only [envPop, List.filter_cons] at ih ⊢
      rw [if_pos (by simp [h])]
      simp only [envGet] at ih ⊢
      rw [List.find?_cons_of_neg (p := fun (q : String × String) => q.1 == k) _ (by simpa using h)]
      exact ih

/-- Lookup after removing a different key. -/
theorem envGet_pop_other (env : Env) (k k1 : String) (h : k1 ≠ k) :
    envGet (envPop env k1) k = envGet env k := by
  induction env with
  | nil => rfl
  | cons p rest ih =>
    by_cases hp : (p.1 == k1) = true
    · have hp1 : p.1 = k1 := by simpa using hp
      simp only [envPop, List.filter_cons] at ih ⊢
      rw [if_neg (by simp [hp])]
      simp only [envGet] at ih ⊢
      rw [List.find?_cons_of_neg (p := fun (q : String × String) => q.1 == k) _ (by simpa [hp1] using h)]
      exact ih
    · simp only [envPop, List.filter_cons] at ih ⊢
      rw [if_pos (by simp [hp])]
      simp only [envGet] at ih ⊢
      by_cases hq : (p.1 == k) = true
      · rw [List.find?_cons_of_pos (p := fun (q : String × String) => q.1 == k) _ hq,
          List.find?_cons_of_pos (p := fun (q : String × String) => q.1 == k) _ hq]
      · rw [List.find?_cons_of_neg (p := fun (q : String × String) => q.1 == k) _ (by simpa using hq),
          List.find?_cons_of_neg (p := fun (q : String × String) => q.1 == k) _ (by simpa using hq)]
        exact ih

/-- The restore loop leaves keys it does not carry untouched. -/
theorem restore_preserves_other (prev : List (String × Option String)) (env : Env)
    (k : String) (h : k ∉ prev.map Prod.fst) :
    envGet (iteration_env_restore env prev) k = envGet env k := by
  induction prev generalizing env with
  | nil => rfl
  | cons kp rest ih =>
    simp only [List.map_cons, List.mem_cons] at h
    push_neg at h
    rcases h with ⟨h1, h2⟩
    simp only [iteration_env_restore]
    rw [ih _ h2]
    cases hv : kp.2 with
    | none => exact envGet_pop_other env k kp.1 (fun hc => h1 hc.symm)
    | some s => exact envGet_store_other env k kp.1 s (fun hc => h1 hc.symm)

/-- The restore loop reinstates each captured (key, previous value) pair,
provided the captured keys are distinct. -/
theorem restore_restores (prev : List (String × Option String)) (env : Env)
    (hnodup : (prev.map Prod.fst).Nodup) (k : String) (p : Option String)
    (hmem : (k, p) ∈ prev) :
    envGet (iteration_env_restore env prev) k = p := by
  induction prev generalizing env with
  | nil => cases hmem
  | cons kp rest ih =>
    simp only [List.map_cons, List.nodup_cons] at hnodup
    rcases hnodup with ⟨hout, hrest⟩
    rcases List.mem_cons.mp hmem with heq | hmem1
    · rcases heq
      simp only [iteration_env_restore]
      rw [restore_preserves_other rest _ k hout]
      cases p with
      | none => exact envGet_pop_self env k
      | some s => exact envGet_store_self env k s
    · simp only [iteration_env_restore]
      exact ih _ hrest hmem1

/-- The capture loop records, for each it_cfg.env key, its value in the
original environment (keys being distinct). -/
theorem capture_prev (itEnv : List (String × String)) (env : Env)
    (hnodup : (itEnv.map Prod.fst).Nodup) :
    (iteration_env_capture env itEnv).1 =
      itEnv.map (fun kv => (kv.1, envGet env kv.1)) := by
  induction itEnv generalizing env with
  | nil => rfl
  | cons kv rest ih =>
    simp only [List.map_cons, List.nodup_cons] at hnodup
    rcases hnodup with ⟨hout, hrest⟩
    simp only [iteration_env_capture, List.map_cons, List.cons.injEq]
    refine ⟨trivial, ?_⟩
    rw [ih _ hrest]
    refine List.map_congr_left ?_
    intro q hq
    have hne : kv.1 ≠ q.1 := by
      intro hc
      exact hout (hc ▸ List.mem_map_of_mem Prod.fst hq)
    rw [envGet_store_other env q.1 kv.1 kv.2 hne]

/-- C4 counterexample: an iteration with no it_cfg.env entries whose body
installs APP2_STG_MUTATIONS_CONFIG via `_set_env` (as every stg_mutation
iteration does, run.py line 672).  The variable was unset before the
iteration and is still set after it — the override is not removed on exit. -/
theorem C4_counterexample_config_var_not_restored :
    envGet (run_iteration_env [] []
      [("APP2_STG_MUTATIONS_CONFIG", some "exp_cfg.yml")])
      "APP2_STG_MUTATIONS_CONFIG" = some "exp_cfg.yml" ∧
    envGet ([] : Env) "APP2_STG_MUTATIONS_CONFIG" = none := by
  constructor
  · rfl
  · rfl

/-- C4 (amended): after an iteration — on the normal and the exception exit
path alike, since the `finally` restore runs on both — every key of the
iteration's own it_cfg.env mapping is restored to its prior value (or removed
if previously unset); every other key, in particular the four config-path
variables installed via `_set_env`, is NOT restored: it keeps whatever value
the body's `_set_env` calls left. -/
theorem C4_iteration_env_restore_scope
    (env0 : Env) (itEnv : List (String × String))
    (bodySets : List (String × Option String))
    (hnodup : (itEnv.map Prod.fst).Nodup) :
    (∀ k ∈ itEnv.map Prod.fst,
      envGet (run_iteration_env env0 itEnv bodySets) k = envGet env0 k) ∧
    (∀ k, k ∉ itEnv.map Prod.fst →
      envGet (run_iteration_env env0 itEnv bodySets) k =
        envGet (apply_env_sets (iteration_env_capture env0 itEnv).2 bodySets) k) := by
  constructor
  · intro k hk
    rcases List.mem_map.mp hk with ⟨kv, hkv, rfl⟩
    unfold run_iteration_env
    have hprev := capture_prev itEnv env0 hnodup
    have hmem : (kv.1, envGet env0 kv.1) ∈ (iteration_env_capture env0 itEnv).1 := by
      rw [hprev]
      exact List.mem_map_of_mem _ hkv
    refine restore_restores _ _ ?_ kv.1 (envGet env0 kv.1) hmem
    rw [hprev]
    have : ((itEnv.map (fun kv => (kv.1, envGet env0 kv.1))).map Prod.fst) =
        itEnv.map Prod.fst := by
      rw [List.map_map]
      rfl
    rw [this]
    exact hnodup
  · intro k hk
    unfold run_iteration_env
    refine restore_preserves_other _ _ k ?_
    rw [capture_prev itEnv env0 hnodup]
    rw [List.map_map]
    exact hk

/-- Witness for C4: one it_cfg.env entry previously unset is removed after
the iteration, while the body-set config variable survives. -/
theorem C4_iteration_env_restore_scope_witness :
    "ITER_KEY" ∈ ([("ITER_KEY", "v")] : List (String × String)).map Prod.fst ∧
    envGet (run_iteration_env [] [("ITER_KEY", "v")]
      [("APP2_STG_MUTATIONS_CONFIG", some "exp_cfg.yml")]) "ITER_KEY" =
      envGet ([] : Env) "ITER_KEY" :=
  ⟨by decide,
   (C4_iteration_env_restore_scope [] [("ITER_KEY", "v")]
      [("APP2_STG_MUTATIONS_CONFIG", some "exp_cfg.yml")] (by decide)).1
      "ITER_KEY" (by decide)⟩

/-
Snapshot differ (`src/app2/experiments/report.py`, `_diff_view_rows`).
Snapshot rows are flat JSON objects (view columns to scalar values); a row is
an insertion-ordered association list with unique field names.  Python's
`json.dumps(row, sort_keys=True)` canonical serialization is modelled by the
field-name-sorted association list (`json.loads` of such a dump gives back
exactly the sorted dict), and `sorted(..., key=str)` by sorting under a fixed
total order on keys: `str` is injective on tuples of None/number/string
values, so Python's sort is also by a total antisymmetric order, and the
claims at issue (symmetry, determinism) do not depend on which total order it
is.  `list(<set>)` enumeration (CPython: hash-table order, independent of
insertion order absent collisions) is modelled canonically as sorted
enumeration. -/

/-- A scalar snapshot cell value; JSON null and SQL NULL are `null`. -/
inductive Val where
  | null
  | num (n : Int)
  | str (s : String)
deriving DecidableEq, Repr

/-- Order-embedding of Val into an existing linear order. -/
def valEnc : Val → WithBot (Lex (Sum Int String))
  | Val.null => ⊥
  | Val.num n => WithBot.some (toLex (Sum.inl n))
  | Val.str s => WithBot.some (toLex (Sum.inr s))

theorem valEnc_injective : Function.Injective valEnc := by
  intro a b h
  cases a with
  | null =>
    cases b with
    | null => rfl
    | num m => exact Option.noConfusion h
    | str t => exact Option.noConfusion h
  | num n =>
    cases b with
    | null => exact Option.noConfusion h
    | num m =>
      have h2 := toLex.injective (Option.some.inj h)
      rw [Sum.inl.inj h2]
    | str t =>
      have h2 := toLex.injective (Option.some.inj h)
      exact Sum.noConfusion h2
  | str s =>
    cases b with
    | null => exact Option.noConfusion h
    | num m =>
      have h2 := toLex.injective (Option.some.inj h)
      exact Sum.noConfusion h2
    | str t =>
      have h2 := toLex.injective (Option.some.inj h)
      rw [Sum.inr.inj h2]

instance : LinearOrder Val := LinearOrder.lift' valEnc valEnc_injective

/-- A snapshot row: field name to value, insertion-ordered, unique names. -/
abbrev Row := List (String × Val)

/-- The business-key tuple of a row. -/
abbrev RowKey := List Val

/-- Python `row.get(f)`: JSON null and an absent field are both `None`. -/
def rowGet (row : Row) (f : String) : Val :=
  match row.find? (fun p => p.1 == f) with
  | some p => p.2
  | none => Val.null

/-- `set(row.keys())` membership base. -/
def rowFields (row : Row) : List String := row.map Prod.fst

/-- Kernel-reducible lexicographic comparison of character lists (for sorting
a row's fields by name as `sort_keys=True` does). -/
def charListLe : List Char → List Char → Bool
  | [], _ => true
  | _ :: _, [] => false
  | a :: as, b :: bs =>
    if a.toNat < b.toNat then true
    else if b.toNat < a.toNat then false
    else charListLe as bs

def strLeB (a b : String) : Bool := charListLe a.toList b.toList

/-- The canonical (field-sorted) form of a row: `_stable_row_json` modulo the
injective JSON serialization, and equally the dict that `json.loads` returns
for such a dump. -/
def rowCanon (row : Row) : Row :=
  List.insertionSort (fun p q => strLeB p.1 q.1 = true) row

/-- Order-embedding of rows for the canonical enumeration of row sets. -/
def rowEnc (row : Row) : List (Lex (String × Val)) := row.map toLex

theorem rowEnc_injective : Function.Injective rowEnc := by
  intro a b h
  exact List.map_injective_iff.mpr (fun x y hxy => hxy) h

/-- Canonical sort of a list under an injective order-embedding. -/
def canonSort {α β : Type} [LinearOrder β] [DecidableEq α] (f : α → β) (l : List α) :
    List α :=
  List.insertionSort (fun a b => f a ≤ f b) l

/-- Canonical sorts of permuted lists coincide. -/
theorem canonSort_eq_of_perm {α β : Type} [LinearOrder β] [DecidableEq α]
    (f : α → β) (hf : Function.Injective f) {l1 l2 : List α} (h : l1.Perm l2) :
    canonSort f l1 = canonSort f l2 := by
  haveI htot : IsTotal α (fun a b => f a ≤ f b) := ⟨fun a b => le_total (f a) (f b)⟩
  haveI htr : IsTrans α (fun a b => f a ≤ f b) := ⟨fun _ _ _ h1 h2 => le_trans h1 h2⟩
  haveI hant : IsAntisymm α (fun a b => f a ≤ f b) :=
    ⟨fun a b h1 h2 => hf (le_antisymm h1 h2)⟩
  refine List.eq_of_perm_of_sorted (r := fun a b => f a ≤ f b) ?_ ?_ ?_
  · exact (List.perm_insertionSort _ l1).trans (h.trans (List.perm_insertionSort _ l2).symm)
  · exact List.sorted_insertionSort _ l1
  · exact List.sorted_insertionSort _ l2

/-- `_VIEW_KEY_FIELDS` (report.py lines 88-91). -/
def viewKeyFields (v : String) : List String :=
  if v == "mart.v_competition_season_kpi" then ["competition_id", "season_id"]
  else if v == "mart.v_team_season_results" then ["competition_id", "season_id", "team_id"]
  else []

/-- `_VIEW_COLUMNS` (report.py lines 58-86). -/
def viewColumns (v : String) : List String :=
  if v == "mart.v_competition_season_kpi" then
    ["competition_name", "season_year", "start_date", "end_date", "matches_total",
     "matches_finished", "teams_distinct", "home_win_rate", "draw_rate", "away_win_rate"]
  else if v == "mart.v_team_season_results" then
    ["competition_name", "season_year", "start_date", "end_date", "team_name",
     "matches_played", "wins", "draws", "losses", "goals_for", "goals_against",
     "goal_difference", "points_calc"]
  else []

/-- `(view or "").strip().lower()` (report.py line 539). -/
def normView (v : String) : String :=
  strLower (String.mk ((((v.toList).dropWhile isSpaceClass).reverse.dropWhile
    isSpaceClass).reverse))

/-- `_row_key` (report.py lines 538-543): `None` iff the view has no declared
key fields; the key tuple itself is built with `row.get`, so its entries never
make the key unsupported. -/
def row_key (view : String) (row : Row) : Option RowKey :=
  let fields := viewKeyFields (normView view)
  if fields.isEmpty then none else some (fields.map (rowGet row))

/-- A key-to-row Python dict: later bindings overwrite (last wins),
insertion order preserved. -/
abbrev KeyedMap := List (RowKey × Row)

def keyedInsert (m : KeyedMap) (k : RowKey) (r : Row) : KeyedMap :=
  if m.any (fun p => p.1 == k) then
    m.map (fun p => if p.1 == k then (p.1, r) else p)
  else m ++ [(k, r)]

/-- The key tuple `_row_key` computes in the supported case. -/
def rowKeyOf (view : String) (r : Row) : RowKey :=
  (viewKeyFields (normView view)).map (rowGet r)

/-- The `base_keyed`/`iter_keyed` construction loops (report.py lines 557-570):
`d[key] = row` over the rows in order. -/
def buildKeyed (view : String) (rows : List Row) : KeyedMap :=
  rows.foldl (fun m r => keyedInsert m (rowKeyOf view r) r) []

def mapKeys (m : KeyedMap) : List RowKey := m.map Prod.fst

def mapGet (m : KeyedMap) (k : RowKey) : Row :=
  (((m.find? (fun p => p.1 == k)).map (fun p => p.2)).getD [])

/-- `sorted(iter_keys - base_keys, key=str)` then `[iter_keyed[k] ...]`
(report.py lines 576, 632): the added rows of the keyed diff, before
truncation handled by the caller. -/
def keyedAdded (mBase mIter : KeyedMap) (limit : Nat) : List Row :=
  ((canonSort id ((mapKeys mIter).filter (fun k => !((mapKeys mBase).contains k)))).take
    limit).map (mapGet mIter)

def keyedRemoved (mBase mIter : KeyedMap) (limit : Nat) : List Row :=
  ((canonSort id ((mapKeys mBase).filter (fun k => !((mapKeys mIter).contains k)))).take
    limit).map (mapGet mBase)

/-- `sorted(common_keys, key=str)` filtered to rows whose canonical
serializations differ (report.py lines 578-583). -/
def keyedChangedKeys (mBase mIter : KeyedMap) : List RowKey :=
  (canonSort id ((mapKeys mBase).filter (fun k => (mapKeys mIter).contains k))).filter
    (fun k => !(rowCanon (mapGet mBase k) == rowCanon (mapGet mIter k)))

/-- One field-level change entry. -/
structure FieldChange where
  field : String
  before : Val
  after : Val
deriving DecidableEq, Repr

/-- The per-changed-row field diff (report.py lines 622-628): iterate the
view's columns (or the sorted union of both rows' field names), skip key
fields, keep fields whose values differ. -/
def fieldDiffs (keyFields columns : List String) (before after : Row) :
    List FieldChange :=
  let fields := if columns.isEmpty then
      canonSort id ((rowFields before ++ rowFields after).dedup)
    else columns
  (fields.filter (fun f => !(keyFields.contains f) && !(rowGet before f == rowGet after f))).map
    (fun f => ⟨f, rowGet before f, rowGet after f⟩)

/-- Python truthiness of a cell value. -/
def valTruthy : Val → Bool
  | Val.null => false
  | Val.num n => n != 0
  | Val.str s => s ≠ ""

/-- Python `a or b` on cell values. -/
def valOr (a b : Val) : Val := if valTruthy a then a else b

/-- Python `str(value)` for a cell value in an f-string. -/
def strVal : Val → String
  | Val.null => "None"
  | Val.num n => toString n
  | Val.str s => s

/-- Python `str(s).strip()`. -/
def pyStrip (s : String) : String :=
  String.mk (((s.toList.dropWhile isSpaceClass).reverse.dropWhile isSpaceClass).reverse)

/-- The human key label of a changed row (report.py lines 606-621), built
with `or`-fallbacks from the baseline then iteration row. -/
def keyLabel (viewLower : String) (before after : Row) : Option String :=
  let start := valOr (rowGet before "start_date") (rowGet after "start_date")
  let stop := valOr (rowGet before "end_date") (rowGet after "end_date")
  let period := if valTruthy start || valTruthy stop then
      strVal start ++ " --- " ++ strVal stop else ""
  let comp := pyStrip (strVal (valOr (rowGet before "competition_name")
    (valOr (rowGet after "competition_name") (Val.str ""))))
  if viewLower == "mart.v_team_season_results" then
    let name := pyStrip (strVal (valOr (rowGet before "team_name")
      (valOr (rowGet after "team_name") (Val.str ""))))
    some (String.intercalate " / "
      (([comp, period, name].filter (fun p => pyStrip p ≠ ""))))
  else if viewLower == "mart.v_competition_season_kpi" then
    some (String.intercalate " / " (([comp, period].filter (fun p => pyStrip p ≠ ""))))
  else none

/-- One entry of the keyed diff's `changed` output. -/
structure ChangedEntry where
  key : RowKey
  key_label : Option String
  changes : List FieldChange
deriving DecidableEq, Repr

/-- `_fmt_cell` (report.py lines 589-600). -/
def fmt_cell (b a : Val) : String :=
  if b = a then (if a = Val.null then "—" else strVal a)
  else if b = Val.null ∧ a = Val.null then "—"
  else if b = Val.null then strVal a ++ " (— → " ++ strVal a ++ ")"
  else if a = Val.null then "— (" ++ strVal b ++ " → —)"
  else strVal a ++ " (" ++ strVal b ++ " → " ++ strVal a ++ ")"

structure TableCell where
  text : String
  changed : Bool
deriving DecidableEq, Repr

structure TableRow where
  key : RowKey
  row_status : String
  cells : List TableCell
deriving DecidableEq, Repr

/-- The result of `_diff_view_rows`. -/
structure ViewDiff where
  added : List Row
  removed : List Row
  changed : List ChangedEntry
  table : Option (List String × List TableRow)
deriving DecidableEq, Repr

/-- The `changed` output entries of the keyed branch (report.py lines
602-629). -/
def keyedChanged (viewLower : String) (mBase mIter : KeyedMap) (limit : Nat) :
    List ChangedEntry :=
  let keyFields := viewKeyFields viewLower
  let columns := viewColumns viewLower
  ((keyedChangedKeys mBase mIter).take limit).map (fun k =>
    ⟨k, keyLabel viewLower (mapGet mBase k) (mapGet mIter k),
      fieldDiffs keyFields columns (mapGet mBase k) (mapGet mIter k)⟩)

/-- The extra `out["table"]` for mart.v_team_season_results (report.py lines
637-650). -/
def keyedTable (viewLower : String) (mBase mIter : KeyedMap) (limit : Nat) :
    Option (List String × List TableRow) :=
  let columns := viewColumns viewLower
  if viewLower == "mart.v_team_season_results" && !columns.isEmpty then
    some (columns,
      ((keyedChangedKeys mBase mIter).take limit).map (fun k =>
        ⟨k, "changed", columns.map (fun col =>
          ⟨fmt_cell (rowGet (mapGet mBase k) col) (rowGet (mapGet mIter k) col),
            !(rowGet (mapGet mBase k) col == rowGet (mapGet mIter k) col)⟩)⟩))
  else none

/-- `_diff_view_rows` (report.py lines 546-662).  The keyed branch is taken
exactly when the view declares key fields (`_row_key` never fails on row
content); otherwise the keyless fallback computes `added`/`removed` as the
set difference of canonical rows, enumerated canonically (see the section
comment) and truncated, with `changed` always empty. -/
def diff_view_rows (view : String) (baseline_rows iteration_rows : List Row)
    (sample_limit : Nat) : ViewDiff :=
  let viewLower := normView view
  if (viewKeyFields viewLower).isEmpty then
    let base_set := (baseline_rows.map rowCanon).dedup
    let iter_set := (iteration_rows.map rowCanon).dedup
    ⟨((canonSort rowEnc (iter_set.filter (fun r => !(base_set.contains r)))).take
        sample_limit),
     ((canonSort rowEnc (base_set.filter (fun r => !(iter_set.contains r)))).take
        sample_limit),
     [], none⟩
  else
    let mBase := buildKeyed view baseline_rows
    let mIter := buildKeyed view iteration_rows
    ⟨keyedAdded mBase mIter sample_limit,
     keyedRemoved mBase mIter sample_limit,
     keyedChanged viewLower mBase mIter sample_limit,
     keyedTable viewLower mBase mIter sample_limit⟩

/-- `contains` only depends on membership. -/
theorem contains_eq_of_perm {α : Type} [BEq α] [LawfulBEq α] {l l1 : List α}
    (h : l1.Perm l) (a : α) : l1.contains a = l.contains a := by
  by_cases hm : a ∈ l1
  · have h1 : l1.contains a = true := List.elem_iff.mpr hm
    have h2 : l.contains a = true := List.elem_iff.mpr (h.mem_iff.mp hm)
    rw [h1, h2]
  · have h1 : l1.contains a = false := by
      rw [← Bool.not_eq_true]
      intro hc
      exact hm (List.elem_iff.mp hc)
    have h2 : l.contains a = false := by
      rw [← Bool.not_eq_true]
      intro hc
      exact hm (h.mem_iff.mpr (List.elem_iff.mp hc))
    rw [h1, h2]

/-- A dict insert with a fresh key appends. -/
theorem keyedInsert_fresh (m : KeyedMap) (k : RowKey) (r : Row)
    (h : k ∉ mapKeys m) : keyedInsert m k r = m ++ [(k, r)] := by
  unfold keyedInsert
  rw [if_neg]
  intro hc
  rcases List.any_eq_true.mp hc with ⟨p, hp, hpk⟩
  exact h (by
    have : p.1 = k := by simpa using hpk
    exact this ▸ List.mem_map_of_mem Prod.fst hp)

/-- With one row per key, the dict build is just pairing each row with its
key (no overwrite ever happens). -/
theorem buildKeyed_eq_map (view : String) (rows : List Row)
    (hnodup : (rows.map (rowKeyOf view)).Nodup) :
    buildKeyed view rows = rows.map (fun r => (rowKeyOf view r, r)) := by
  suffices hgen : ∀ (rs : List Row) (m : KeyedMap),
      (rs.map (rowKeyOf view)).Nodup →
      (∀ r ∈ rs, rowKeyOf view r ∉ mapKeys m) →
      rs.foldl (fun m0 r => keyedInsert m0 (rowKeyOf view r) r) m =
        m ++ rs.map (fun r => (rowKeyOf view r, r)) by
    have h0 := hgen rows [] hnodup (fun r _ => List.not_mem_nil _)
    simpa [buildKeyed] using h0
  intro rs
  induction rs with
  | nil => intro m _ _; simp
  | cons r rest ih =>
    intro m hnd hfresh
    simp only [List.map_cons, List.nodup_cons] at hnd
    rcases hnd with ⟨hout, hrest⟩
    simp only [List.foldl_cons]
    rw [keyedInsert_fresh m _ r (hfresh r (List.mem_cons_self r rest))]
    rw [ih (m ++ [(rowKeyOf view r, r)]) hrest ?_]
    · simp
    · intro r1 hr1
      simp only [mapKeys, List.map_append, List.map_cons, List.map_nil,
        List.mem_append, List.mem_singleton]
      intro hc
      rcases hc with hc | hc
      · exact hfresh r1 (List.mem_cons_of_mem r hr1) hc
      · exact hout (hc ▸ List.mem_map_of_mem (rowKeyOf view) hr1)

/-- The keys of the built dict, with one row per key. -/
theorem mapKeys_buildKeyed (view : String) (rows : List Row)
    (hnodup : (rows.map (rowKeyOf view)).Nodup) :
    mapKeys (buildKeyed view rows) = rows.map (rowKeyOf view) := by
  rw [buildKeyed_eq_map view rows hnodup]
  simp [mapKeys, List.map_map, Function.comp]

/-- Characterization of assoc-list search under distinct keys. -/
theorem assoc_find?_iff (m : KeyedMap) (hnodup : (mapKeys m).Nodup) (k : RowKey)
    (p : RowKey × Row) :
    m.find? (fun q => q.1 == k) = some p ↔ p ∈ m ∧ p.1 = k := by
  constructor
  · intro h
    exact ⟨List.mem_of_find?_eq_some h, by simpa using List.find?_some h⟩
  · intro h
    rcases h with ⟨hmem, hkey⟩
    induction m with
    | nil => cases hmem
    | cons q rest ih =>
      simp only [mapKeys, List.map_cons, List.nodup_cons] at hnodup
      rcases hnodup with ⟨hout, hrest⟩
      by_cases hq : (q.1 == k) = true
      · rw [List.find?_cons_of_pos (p := fun (q : RowKey × Row) => q.1 == k) _ hq]
        rcases List.mem_cons.mp hmem with rfl | hmem1
        · rfl
        · exfalso
          have hq1 : q.1 = k := by simpa using hq
          apply hout
          rw [show q.1 = p.1 from hq1.trans hkey.symm]
          exact List.mem_map_of_mem Prod.fst hmem1
      · rw [List.find?_cons_of_neg (p := fun (q : RowKey × Row) => q.1 == k) _ hq]
        rcases List.mem_cons.mp hmem with rfl | hmem1
        · exact absurd (by simpa using hkey) hq
        · exact ih hrest hmem1

/-- Dict lookup is invariant under permutation when keys are distinct. -/
theorem mapGet_eq_of_perm (m m1 : KeyedMap) (hperm : m1.Perm m)
    (hnodup : (mapKeys m).Nodup) (k : RowKey) : mapGet m1 k = mapGet m k := by
  have hnodup1 : (mapKeys m1).Nodup := hnodup.perm ((hperm.map Prod.fst).symm)
  unfold mapGet
  cases hf : m.find? (fun q => q.1 == k) with
  | some p =>
    have h1 := (assoc_find?_iff m hnodup k p).mp hf
    have h2 : m1.find? (fun q => q.1 == k) = some p :=
      (assoc_find?_iff m1 hnodup1 k p).mpr ⟨hperm.mem_iff.mpr h1.1, h1.2⟩
    rw [h2]
  | none =>
    have h2 : m1.find? (fun q => q.1 == k) = none := by
      cases hf1 : m1.find? (fun q => q.1 == k) with
      | none => rfl
      | some p =>
        have h1 := (assoc_find?_iff m1 hnodup1 k p).mp hf1
        have hcontr : m.find? (fun q => q.1 == k) = some p :=
          (assoc_find?_iff m hnodup k p).mpr ⟨hperm.mem_iff.mp h1.1, h1.2⟩
        rw [hf] at hcontr
        cases hcontr
    rw [h2]

/-- C9 counterexample: in the keyed mode, two rows sharing the same business
key collapse last-wins into the key map, so swapping them changes the diff:
against an empty iteration side, the removed sample reports the second row in
one order and the first row in the other. -/
theorem C9_counterexample_duplicate_keys_order_sensitive :
    ([[("competition_id", Val.num 1), ("season_id", Val.num 1),
       ("matches_total", Val.num 5)],
      [("competition_id", Val.num 1), ("season_id", Val.num 1),
       ("matches_total", Val.num 7)]] : List Row).Perm
      [[("competition_id", Val.num 1), ("season_id", Val.num 1),
        ("matches_total", Val.num 7)],
       [("competition_id", Val.num 1), ("season_id", Val.num 1),
        ("matches_total", Val.num 5)]] ∧
    (diff_view_rows "mart.v_competition_season_kpi"
      [[("competition_id", Val.num 1), ("season_id", Val.num 1),
        ("matches_total", Val.num 5)],
       [("competition_id", Val.num 1), ("season_id", Val.num 1),
        ("matches_total", Val.num 7)]] [] 50).removed =
      [[("competition_id", Val.num 1), ("season_id", Val.num 1),
        ("matches_total", Val.num 7)]] ∧
    (diff_view_rows "mart.v_competition_season_kpi"
      [[("competition_id", Val.num 1), ("season_id", Val.num 1),
        ("matches_total", Val.num 7)],
       [("competition_id", Val.num 1), ("season_id", Val.num 1),
        ("matches_total", Val.num 5)]] [] 50).removed =
      [[("competition_id", Val.num 1), ("season_id", Val.num 1),
        ("matches_total", Val.num 5)]] ∧
    ([[("competition_id", Val.num 1), ("season_id", Val.num 1),
       ("matches_total", Val.num 7)]] : List Row) ≠
      [[("competition_id", Val.num 1), ("season_id", Val.num 1),
        ("matches_total", Val.num 5)]] := by
  refine ⟨List.Perm.swap _ _ _, ?_, ?_, by decide⟩
  · rfl
  · rfl

/-- C9 (amended): the differ is a pure function of its two inputs (repeated
invocations agree), and its result is unchanged under any reordering of the
rows within each input list, provided in the keyed mode that each input list
carries at most one row per business key; with duplicate keys the dict build
is last-wins and the result depends on the order (see the counterexample).
The keyless fallback branch is unconditionally order-insensitive. -/
theorem C9_diff_view_rows_order_insensitive
    (view : String) (A B A1 B1 : List Row) (n : Nat)
    (hA : A1.Perm A) (hB : B1.Perm B)
    (hnodupA : viewKeyFields (normView view) ≠ [] → (A.map (rowKeyOf view)).Nodup)
    (hnodupB : viewKeyFields (normView view) ≠ [] → (B.map (rowKeyOf view)).Nodup) :
    diff_view_rows view A1 B1 n = diff_view_rows view A B n := by
  by_cases hkey : ((viewKeyFields (normView view)).isEmpty = true)
  · simp only [diff_view_rows, hkey, if_true]
    have hsetA : ((A1.map rowCanon).dedup).Perm ((A.map rowCanon).dedup) :=
      (hA.map rowCanon).dedup
    have hsetB : ((B1.map rowCanon).dedup).Perm ((B.map rowCanon).dedup) :=
      (hB.map rowCanon).dedup
    have hadded : (B1.map rowCanon).dedup.filter
        (fun r => !((A1.map rowCanon).dedup.contains r)) |>.Perm
        ((B.map rowCanon).dedup.filter
          (fun r => !((A.map rowCanon).dedup.contains r))) := by
      rw [List.filter_congr (fun x _ => by rw [contains_eq_of_perm hsetA x])]
      exact hsetB.filter _
    have hremoved : (A1.map rowCanon).dedup.filter
        (fun r => !((B1.map rowCanon).dedup.contains r)) |>.Perm
        ((A.map rowCanon).dedup.filter
          (fun r => !((B.map rowCanon).dedup.contains r))) := by
      rw [List.filter_congr (fun x _ => by rw [contains_eq_of_perm hsetB x])]
      exact hsetA.filter _
    rw [canonSort_eq_of_perm rowEnc rowEnc_injective hadded,
      canonSort_eq_of_perm rowEnc rowEnc_injective hremoved]
  · have hne : viewKeyFields (normView view) ≠ [] := by
      simpa [List.isEmpty_iff] using hkey
    have hndA := hnodupA hne
    have hndB := hnodupB hne
    have hndA1 : (A1.map (rowKeyOf view)).Nodup := hndA.perm ((hA.map _).symm)
    have hndB1 : (B1.map (rowKeyOf view)).Nodup := hndB.perm ((hB.map _).symm)
    have hpermA : (mapKeys (buildKeyed view A1)).Perm (mapKeys (buildKeyed view A)) := by
      rw [mapKeys_buildKeyed view A1 hndA1, mapKeys_buildKeyed view A hndA]
      exact hA.map _
    have hpermB : (mapKeys (buildKeyed view B1)).Perm (mapKeys (buildKeyed view B)) := by
      rw [mapKeys_buildKeyed view B1 hndB1, mapKeys_buildKeyed view B hndB]
      exact hB.map _
    have hmapermA : (buildKeyed view A1).Perm (buildKeyed view A) := by
      rw [buildKeyed_eq_map view A1 hndA1, buildKeyed_eq_map view A hndA]
      exact hA.map _
    have hmapermB : (buildKeyed view B1).Perm (buildKeyed view B) := by
      rw [buildKeyed_eq_map view B1 hndB1, buildKeyed_eq_map view B hndB]
      exact hB.map _
    have hkeysA : (mapKeys (buildKeyed view A)).Nodup := by
      rw [mapKeys_buildKeyed view A hndA]; exact hndA
    have hkeysB : (mapKeys (buildKeyed view B)).Nodup := by
      rw [mapKeys_buildKeyed view B hndB]; exact hndB
    have hgetA : mapGet (buildKeyed view A1) = mapGet (buildKeyed view A) :=
      funext (fun k => mapGet_eq_of_perm _ _ hmapermA hkeysA k)
    have hgetB : mapGet (buildKeyed view B1) = mapGet (buildKeyed view B) :=
      funext (fun k => mapGet_eq_of_perm _ _ hmapermB hkeysB k)
    have haddkeys : canonSort id ((mapKeys (buildKeyed view B1)).filter
        (fun k => !((mapKeys (buildKeyed view A1)).contains k))) =
        canonSort id ((mapKeys (buildKeyed view B)).filter
          (fun k => !((mapKeys (buildKeyed view A)).contains k))) := by
      refine canonSort_eq_of_perm id Function.injective_id ?_
      rw [List.filter_congr (fun x _ => by rw [contains_eq_of_perm hpermA x])]
      exact hpermB.filter _
    have hremkeys : canonSort id ((mapKeys (buildKeyed view A1)).filter
        (fun k => !((mapKeys (buildKeyed view B1)).contains k))) =
        canonSort id ((mapKeys (buildKeyed view A)).filter
          (fun k => !((mapKeys (buildKeyed view B)).contains k))) := by
      refine canonSort_eq_of_perm id Function.injective_id ?_
      rw [List.filter_congr (fun x _ => by rw [contains_eq_of_perm hpermB x])]
      exact hpermA.filter _
    have hcommon : canonSort id ((mapKeys (buildKeyed view A1)).filter
        (fun k => (mapKeys (buildKeyed view B1)).contains k)) =
        canonSort id ((mapKeys (buildKeyed view A)).filter
          (fun k => (mapKeys (buildKeyed view B)).contains k)) := by
      refine canonSort_eq_of_perm id Function.injective_id ?_
      rw [List.filter_congr (fun x _ => by rw [contains_eq_of_perm hpermB x])]
      exact hpermA.filter _
    have hck : keyedChangedKeys (buildKeyed view A1) (buildKeyed view B1) =
        keyedChangedKeys (buildKeyed view A) (buildKeyed view B) := by
      unfold keyedChangedKeys
      rw [hcommon, hgetA, hgetB]
    simp only [diff_view_rows, hkey, Bool.false_eq_true, if_false]
    unfold keyedAdded keyedRemoved keyedChanged keyedTable
    rw [haddkeys, hremkeys, hck, hgetA, hgetB]

/-- Witness for C9: a reordering of two distinct rows in the keyless fallback
mode leaves the diff unchanged. -/
theorem C9_diff_view_rows_order_insensitive_witness :
    diff_view_rows "other_view" [[("a", Val.num 1)], [("a", Val.num 2)]] [] 50 =
      diff_view_rows "other_view" [[("a", Val.num 2)], [("a", Val.num 1)]] [] 50 :=
  C9_diff_view_rows_order_insensitive "other_view"
    [[("a", Val.num 2)], [("a", Val.num 1)]] [] _ [] 50
    (List.Perm.swap _ _ _) (List.Perm.refl _)
    (fun h => absurd (by decide) h) (fun h => absurd (by decide) h)

/-- `==` from decidable equality is symmetric. -/
theorem beq_symm_eq {α : Type} [BEq α] [LawfulBEq α] (x y : α) :
    (x == y) = (y == x) := by
  by_cases h : x = y
  · subst h
    rfl
  · rw [beq_eq_false_iff_ne.mpr h, beq_eq_false_iff_ne.mpr (Ne.symm h)]

/-- The key list of a dict insert: unchanged on overwrite, extended on a
fresh key. -/
theorem mapKeys_keyedInsert (m : KeyedMap) (k : RowKey) (r : Row) :
    mapKeys (keyedInsert m k r) = mapKeys m ∨
      (mapKeys (keyedInsert m k r) = mapKeys m ++ [k] ∧ k ∉ mapKeys m) := by
  unfold keyedInsert
  by_cases h : (m.any (fun p => p.1 == k)) = true
  · left
    rw [if_pos h]
    simp only [mapKeys, List.map_map]
    refine List.map_congr_left ?_
    intro p _
    by_cases hp : (p.1 == k) = true
    · simp [Function.comp, hp]
    · simp [Function.comp, hp]
  · right
    rw [if_neg h]
    constructor
    · simp [mapKeys]
    · intro hc
      rcases List.mem_map.mp hc with ⟨p, hp, hpk⟩
      exact h (List.any_eq_true.mpr ⟨p, hp, by simp [hpk]⟩)

/-- A built dict always has distinct keys. -/
theorem buildKeyed_keys_nodup (view : String) (rows : List Row) :
    (mapKeys (buildKeyed view rows)).Nodup := by
  suffices hgen : ∀ (rs : List Row) (m : KeyedMap), (mapKeys m).Nodup →
      (mapKeys (rs.foldl (fun m0 r => keyedInsert m0 (rowKeyOf view r) r) m)).Nodup by
    exact hgen rows [] List.nodup_nil
  intro rs
  induction rs with
  | nil => intro m hm; exact hm
  | cons r rest ih =>
    intro m hm
    simp only [List.foldl_cons]
    refine ih _ ?_
    rcases mapKeys_keyedInsert m (rowKeyOf view r) r with heq | ⟨heq, hnin⟩
    · rw [heq]; exact hm
    · rw [heq]
      simpa [List.nodup_append] using ⟨hm, hnin⟩

/-- Deduplicated unions in either order are permutations. -/
theorem dedup_append_perm {α : Type} [DecidableEq α] (l1 l2 : List α) :
    ((l1 ++ l2).dedup).Perm ((l2 ++ l1).dedup) := by
  rw [List.perm_ext_iff_of_nodup (List.nodup_dedup _) (List.nodup_dedup _)]
  intro a
  simp only [List.mem_dedup, List.mem_append]
  exact or_comm

/-- The two enumeration orders of a key intersection are permutations when
both key lists are duplicate-free. -/
theorem inter_filter_perm (ka kb : List RowKey) (hka : ka.Nodup) (hkb : kb.Nodup) :
    (ka.filter (fun k => kb.contains k)).Perm (kb.filter (fun k => ka.contains k)) := by
  rw [List.perm_ext_iff_of_nodup (hka.filter _) (hkb.filter _)]
  intro a
  simp only [List.mem_filter]
  constructor
  · intro h
    exact ⟨List.elem_iff.mp h.2, List.elem_iff.mpr h.1⟩
  · intro h
    exact ⟨List.elem_iff.mp h.2, List.elem_iff.mpr h.1⟩

/-- Swapping a field change's before/after. -/
def swapFC (c : FieldChange) : FieldChange := ⟨c.field, c.after, c.before⟩

/-- The field-level diff of a changed row, with the two rows swapped: the
same fields change, with before and after exchanged. -/
theorem fieldDiffs_swap (keyFields columns : List String) (x y : Row) :
    fieldDiffs keyFields columns y x = (fieldDiffs keyFields columns x y).map swapFC := by
  simp only [fieldDiffs]
  have hfields : (if columns.isEmpty then
      canonSort id ((rowFields y ++ rowFields x).dedup) else columns) =
      (if columns.isEmpty then
        canonSort id ((rowFields x ++ rowFields y).dedup) else columns) := by
    by_cases hc : columns.isEmpty
    · rw [if_pos hc, if_pos hc]
      exact canonSort_eq_of_perm id Function.injective_id
        (dedup_append_perm (rowFields y) (rowFields x))
    · rw [if_neg hc, if_neg hc]
  rw [hfields]
  rw [List.map_map]
  have hfil : ∀ F : List String,
      List.filter (fun f => !(keyFields.contains f) && !(rowGet y f == rowGet x f)) F =
        List.filter (fun f => !(keyFields.contains f) && !(rowGet x f == rowGet y f)) F :=
    fun F => List.filter_congr (fun f _ => by rw [beq_symm_eq (rowGet y f) (rowGet x f)])
  rw [hfil]
  rfl

/-- C8: for any two row lists of a view with a supported business key, the
diffs of (A, B) and (B, A) have added and removed swapped, their changed
entries cover the same keys in the same order, and every field-level change
appears with before and after exchanged. -/
theorem C8_diff_symmetry (view : String) (A B : List Row) (limit : Nat)
    (hk : viewKeyFields (normView view) ≠ []) :
    (diff_view_rows view A B limit).added = (diff_view_rows view B A limit).removed ∧
    (diff_view_rows view A B limit).removed = (diff_view_rows view B A limit).added ∧
    (diff_view_rows view A B limit).changed.map (fun c => c.key) =
      (diff_view_rows view B A limit).changed.map (fun c => c.key) ∧
    (diff_view_rows view B A limit).changed.map (fun c => c.changes) =
      (diff_view_rows view A B limit).changed.map (fun c => c.changes.map swapFC) := by
  have hkey : ¬((viewKeyFields (normView view)).isEmpty = true) := by
    simpa [List.isEmpty_iff] using hk
  have hred : ∀ (X Y : List Row),
      diff_view_rows view X Y limit =
        ⟨keyedAdded (buildKeyed view X) (buildKeyed view Y) limit,
         keyedRemoved (buildKeyed view X) (buildKeyed view Y) limit,
         keyedChanged (normView view) (buildKeyed view X) (buildKeyed view Y) limit,
         keyedTable (normView view) (buildKeyed view X) (buildKeyed view Y) limit⟩ := by
    intro X Y
    simp only [diff_view_rows]
    rw [if_neg hkey]
  have hck : keyedChangedKeys (buildKeyed view B) (buildKeyed view A) =
      keyedChangedKeys (buildKeyed view A) (buildKeyed view B) := by
    unfold keyedChangedKeys
    have hint : canonSort id ((mapKeys (buildKeyed view B)).filter
        (fun k => (mapKeys (buildKeyed view A)).contains k)) =
        canonSort id ((mapKeys (buildKeyed view A)).filter
          (fun k => (mapKeys (buildKeyed view B)).contains k)) :=
      canonSort_eq_of_perm id Function.injective_id
        (inter_filter_perm _ _ (buildKeyed_keys_nodup view B) (buildKeyed_keys_nodup view A))
    rw [hint]
    refine List.filter_congr ?_
    intro k _
    rw [beq_symm_eq]
  rw [hred A B, hred B A]
  refine ⟨rfl, rfl, ?_, ?_⟩
  · unfold keyedChanged
    rw [hck]
    rw [List.map_map, List.map_map]
    rfl
  · unfold keyedChanged
    rw [hck]
    rw [List.map_map, List.map_map]
    refine List.map_congr_left ?_
    intro k _
    simp only [Function.comp]
    exact fieldDiffs_swap (viewKeyFields (normView view)) (viewColumns (normView view))
      (mapGet (buildKeyed view A) k) (mapGet (buildKeyed view B) k)

/-- Witness for C8: the keyed view accepts the symmetry theorem at a concrete
pair of snapshots. -/
theorem C8_diff_symmetry_witness :
    (diff_view_rows "mart.v_competition_season_kpi"
        [[("competition_id", Val.num 1), ("season_id", Val.num 1),
          ("matches_total", Val.num 5)]]
        [] 50).added =
      (diff_view_rows "mart.v_competition_season_kpi" []
        [[("competition_id", Val.num 1), ("season_id", Val.num 1),
          ("matches_total", Val.num 5)]] 50).removed :=
  (C8_diff_symmetry "mart.v_competition_season_kpi"
    [[("competition_id", Val.num 1), ("season_id", Val.num 1),
      ("matches_total", Val.num 5)]]
    [] 50 (by decide)).1

/-- C6: two invocations of the mutation injector with the same (run_id, layer,
kind, payload), the same configuration and the same process environment give
identical payloads, flags and mutation descriptions, whatever the ambient
(unseeded) random state of either run: every action reseeds its generator
deterministically from run_id, layer, kind and the action name, so the
unseeded-generator fallback is never consulted. -/
theorem C6_mutate_payload_deterministic
    (amb1 amb2 : Nat → Nat → List Nat) (cfg : MutationKindCfg) (engine : Bool)
    (layer : String) (dag_id run_id : Option String) (kind : String)
    (payload : JVal) (env : Option String) :
    mutate_payload amb1 cfg engine layer dag_id run_id kind payload env =
      mutate_payload amb2 cfg engine layer dag_id run_id kind payload env := by
  unfold mutate_payload
  have hstep : (fun (acc : JVal × List String) (action : String) =>
      match mutate_list acc.1 kind action (some (actionSeed run_id layer kind action))
          amb1 env with
      | some (p1, desc) => (p1, acc.2 ++ [desc])
      | none => acc) =
      (fun (acc : JVal × List String) (action : String) =>
      match mutate_list acc.1 kind action (some (actionSeed run_id layer kind action))
          amb2 env with
      | some (p1, desc) => (p1, acc.2 ++ [desc])
      | none => acc) := by
    funext acc action
    have : mutate_list acc.1 kind action (some (actionSeed run_id layer kind action))
        amb1 env =
        mutate_list acc.1 kind action (some (actionSeed run_id layer kind action))
          amb2 env := by
      unfold mutate_list
      rfl
    rw [this]
  rw [hstep]

/-- C7: if mutation is disabled for the entity, or no configured action fires
on the payload, `mutate_payload` returns the original payload unchanged with
the mutated flag false and writes no audit event. -/
theorem C7_mutate_payload_noop
    (amb : Nat → Nat → List Nat) (cfg : MutationKindCfg) (engine : Bool)
    (layer : String) (dag_id run_id : Option String) (kind : String)
    (payload : JVal) (env : Option String)
    (h : cfg.enabled = false ∨ ∀ action ∈ cfg.actions,
      mutate_list payload kind action (some (actionSeed run_id layer kind action))
        amb env = none) :
    mutate_payload amb cfg engine layer dag_id run_id kind payload env =
      (payload, false, []) := by
  rcases h with h | h
  · unfold mutate_payload
    rw [h]
    rfl
  · unfold mutate_payload
    have hfoldgen : ∀ acts : List String,
        (∀ action ∈ acts,
          mutate_list payload kind action (some (actionSeed run_id layer kind action))
            amb env = none) →
        acts.foldl (fun (acc : JVal × List String) (action : String) =>
          match mutate_list acc.1 kind action (some (actionSeed run_id layer kind action))
              amb env with
          | some (p1, desc) => (p1, acc.2 ++ [desc])
          | none => acc) (payload, []) = (payload, []) := by
      intro acts
      induction acts with
      | nil => intro _; rfl
      | cons a as ih =>
        intro hall
        rw [List.foldl_cons]
        have ha := hall a (List.mem_cons_self a as)
        simp only [ha]
        exact ih (fun x hx => hall x (List.mem_cons_of_mem a hx))
    have hfold := hfoldgen cfg.actions h
    cases hc : cfg.enabled with
    | false => rfl
    | true =>
      simp only [hc, Bool.not_true, if_neg (by decide : ¬false = true)]
      rw [hfold]
      rfl

/-- Witness for C7: entity enabled with one configured action, payload lacking
the target list: nothing fires and the payload comes back unchanged. -/
theorem C7_mutate_payload_noop_witness :
    mutate_payload (fun _ _ => []) ⟨true, ["duplicate_first"]⟩ true "STG"
      (some "d") (some "r1") "teams" (JVal.obj [("count", JVal.num 3)]) none =
      (JVal.obj [("count", JVal.num 3)], false, []) :=
  C7_mutate_payload_noop (fun _ _ => []) ⟨true, ["duplicate_first"]⟩ true "STG"
    (some "d") (some "r1") "teams" (JVal.obj [("count", JVal.num 3)]) none
    (Or.inr (by
      intro a ha
      rcases List.mem_singleton.mp ha with rfl
      rfl))
